import Mathlib

/-!
# Verification of the root-motion source subsystem of `ue5-custom-gravity`

Shallow embedding of `Source/CustomGravityTest/Character/BaseRootMotionSource.cpp`
and the root-motion replay-buffer lookup of
`Source/CustomGravityTest/Character/BaseCharacter.cpp`.

Modelling conventions:
* C++ `float`/`double` values are modelled as exact rationals (`ℚ`); float
  literals such as `UE_SMALL_NUMBER` are embedded as the decimal values they
  denote in the source text.
* Engine math that computes irrational values (`FVector::Dist`,
  `GetSafeNormal`, `FRotator::RotateVector`, curve-asset evaluation, ...)
  belongs to the excluded engine collaborators; it is modelled by an
  `EngineEnv` record of oracle functions, and the embedded code calls the
  oracle exactly where the C++ calls the engine.
* `UObject*` references (curve assets, actors) are compared by pointer in the
  C++; they are modelled as `Option ℕ` object identities.
* `TSharedPtr<FBaseRootMotionSource>` entries of a group may be null; the
  lists are therefore `List (Option FBaseRootMotionSource)` and every
  `IsValid()` check in the C++ is an `Option` match here.
-/

/-! ## Basic scalar constants (Engine/Core math constants used by the file) -/

/-- `UE_SMALL_NUMBER` (1.e-8f). -/
def UE_SMALL_NUMBER : ℚ := 1 / 100000000

/-- `UE_KINDA_SMALL_NUMBER` (1.e-4f). -/
def UE_KINDA_SMALL_NUMBER : ℚ := 1 / 10000

/-- `UE_BIG_NUMBER` (3.4e+38f). -/
def UE_BIG_NUMBER : ℚ := 34 * 10 ^ 37

/-- `const float RootMotionSource_InvalidStartTime = -UE_BIG_NUMBER;`
(BaseRootMotionSource.cpp:73). -/
def RootMotionSource_InvalidStartTime : ℚ := -UE_BIG_NUMBER

namespace FMath

/-- `FMath::Clamp(X, Min, Max)`. -/
def clamp (x lo hi : ℚ) : ℚ := if x < lo then lo else if x < hi then x else hi

/-- `FMath::IsNearlyEqual(A, B, ErrorTolerance)`: `|A - B| <= ErrorTolerance`. -/
def isNearlyEqual (a b tol : ℚ) : Bool := decide (|a - b| ≤ tol)

/-- `FMath::Min` on floats. -/
def minQ (a b : ℚ) : ℚ := min a b

/-- `FMath::Max` on floats. -/
def maxQ (a b : ℚ) : ℚ := max a b

/-- `FMath::Lerp(A, B, Alpha) = A + Alpha * (B - A)`. -/
def lerp (a b alpha : ℚ) : ℚ := a + alpha * (b - a)

/-- `FMath::GetRangeValue(Range, Pct)`: lerp across the `FVector2f` range. -/
def getRangeValue (lo hi pct : ℚ) : ℚ := lerp lo hi pct

/-- `FMath::Square`. -/
def square (a : ℚ) : ℚ := a * a

end FMath

/-! ## `FVector` (rational components) -/

/-- `FVector`, with exact rational components. -/
structure FVector where
  x : ℚ
  y : ℚ
  z : ℚ
deriving DecidableEq, Repr

namespace FVector

/-- `FVector::ZeroVector` / `ForceInitToZero`. -/
def zero : FVector := ⟨0, 0, 0⟩

instance : Add FVector := ⟨fun a b => ⟨a.x + b.x, a.y + b.y, a.z + b.z⟩⟩

instance : Sub FVector := ⟨fun a b => ⟨a.x - b.x, a.y - b.y, a.z - b.z⟩⟩

/-- Scalar multiplication (`V * s`, `ScaleTranslation`). -/
def scale (v : FVector) (s : ℚ) : FVector := ⟨v.x * s, v.y * s, v.z * s⟩

/-- Scalar division (`V / s`). -/
def divQ (v : FVector) (s : ℚ) : FVector := ⟨v.x / s, v.y / s, v.z / s⟩

/-- `FVector::SizeSquared()` — exact, no square root involved. -/
def sizeSquared (v : FVector) : ℚ := v.x * v.x + v.y * v.y + v.z * v.z

/-- `FVector::PointsAreNear(Point1, Point2, Dist)`: each axis delta is
strictly below `Dist`. -/
def pointsAreNear (p q : FVector) (d : ℚ) : Bool :=
  decide (|p.x - q.x| < d) && decide (|p.y - q.y| < d) && decide (|p.z - q.z| < d)

/-- `FVector::Equals(V, Tolerance)`: per-axis `<=` comparison. -/
def equals (p q : FVector) (tol : ℚ) : Bool :=
  decide (|p.x - q.x| ≤ tol) && decide (|p.y - q.y| ≤ tol) && decide (|p.z - q.z| ≤ tol)

/-- `FVector::IsNearlyZero(Tolerance)`. -/
def isNearlyZero (v : FVector) (tol : ℚ) : Bool :=
  decide (|v.x| ≤ tol) && decide (|v.y| ≤ tol) && decide (|v.z| ≤ tol)

/-- `FMath::Lerp<FVector, float>`. -/
def lerpV (a b : FVector) (alpha : ℚ) : FVector :=
  ⟨FMath.lerp a.x b.x alpha, FMath.lerp a.y b.y alpha, FMath.lerp a.z b.z alpha⟩

end FVector

/-- `FRotator` (pitch, yaw, roll), rational degrees. -/
structure FRotator where
  pitch : ℚ
  yaw : ℚ
  roll : ℚ
deriving DecidableEq, Repr

namespace FRotator

def zero : FRotator := ⟨0, 0, 0⟩

/-- `FRotator::Equals(R, Tolerance)`: per-axis comparison within tolerance
(modelled without winding normalisation, which is engine math). -/
def equals (a b : FRotator) (tol : ℚ) : Bool :=
  decide (|a.pitch - b.pitch| ≤ tol) && decide (|a.yaw - b.yaw| ≤ tol) &&
    decide (|a.roll - b.roll| ≤ tol)

end FRotator

/-! ## Engine oracle

Trigonometric / square-root engine math and asset queries, which the core
consumes from the excluded collaborators.  Each field corresponds to one
engine entry point called by `BaseRootMotionSource.cpp`. -/

structure EngineEnv where
  /-- `UCurveFloat::GetFloatValue` of the curve asset with the given id. -/
  curveFloatValue : ℕ → ℚ → ℚ
  /-- `UCurveFloat::GetTimeRange` (min, max). -/
  curveFloatTimeRange : ℕ → ℚ × ℚ
  /-- `UCurveVector::GetVectorValue`. -/
  curveVectorValue : ℕ → ℚ → FVector
  /-- `UCurveVector::GetTimeRange` (min, max). -/
  curveVectorTimeRange : ℕ → ℚ × ℚ
  /-- `FVector::Dist`. -/
  dist : FVector → FVector → ℚ
  /-- `FVector::GetSafeNormal`. -/
  safeNormal : FVector → FVector
  /-- `FVector::Size`. -/
  size : FVector → ℚ
  /-- `FVector::Normalize` (the normalised vector it leaves in place). -/
  normalize : FVector → FVector
  /-- `FVector::GetClampedToMaxSize2D`. -/
  clampedToMaxSize2D : FVector → ℚ → FVector
  /-- `FRotator::Vector()`. -/
  rotatorVector : FRotator → FVector
  /-- `FRotator::RotateVector` (used with pitch already zeroed by the core). -/
  rotateVector : FRotator → FVector → FVector
  /-- `(V).Rotation()`: direction vector to rotator. -/
  vectorToRotator : FVector → FRotator
  /-- `AActor::GetActorLocation()` for an actor object id. -/
  actorLocation : ℕ → FVector

/-- `static float EvaluateFloatCurveAtFraction(const UCurveFloat&, float)`
(BaseRootMotionSource.cpp:76-83). -/
def EvaluateFloatCurveAtFraction (env : EngineEnv) (curve : ℕ) (fraction : ℚ) : ℚ :=
  let r := env.curveFloatTimeRange curve
  env.curveFloatValue curve (FMath.getRangeValue r.1 r.2 fraction)

/-- `static FVector EvaluateVectorCurveAtFraction(const UCurveVector&, float)`
(BaseRootMotionSource.cpp:85-92). -/
def EvaluateVectorCurveAtFraction (env : EngineEnv) (curve : ℕ) (fraction : ℚ) : FVector :=
  let r := env.curveVectorTimeRange curve
  env.curveVectorValue curve (FMath.getRangeValue r.1 r.2 fraction)

/-! ## Status and settings flag sets

Modelled from the spec: the enum declarations
`EBaseRootMotionSourceStatusFlags` (Prepared, Finished, MarkedForRemoval) and
`EBaseRootMotionSourceSettingsFlags` (DisablePartialEndTick,
IgnoreZAccumulate) live in `BaseRootMotionSource.h`, which is not part of the
provided sources; the spec's data model (§3) lists exactly these flags.  The
`uint8` bitmask of the C++ is modelled as a record of named booleans — the
.cpp only ever manipulates it through `SetFlag`/`UnSetFlag`/`HasFlag`, whole-
value copies, whole-value equality and the `|=` union, all of which are
representable on the record. -/

inductive EBaseRootMotionSourceStatusFlags where
  | Prepared
  | Finished
  | MarkedForRemoval
deriving DecidableEq, Repr

/-- `FBaseRootMotionSourceStatus` (flag bitset). -/
structure FBaseRootMotionSourceStatus where
  prepared : Bool := false
  finished : Bool := false
  markedForRemoval : Bool := false
deriving DecidableEq, Repr

namespace FBaseRootMotionSourceStatus

/-- Default constructor: `Flags(0)`. -/
def init : FBaseRootMotionSourceStatus := {}

/-- `FBaseRootMotionSourceStatus::SetFlag`. -/
def setFlag (st : FBaseRootMotionSourceStatus) :
    EBaseRootMotionSourceStatusFlags → FBaseRootMotionSourceStatus
  | .Prepared => { st with prepared := true }
  | .Finished => { st with finished := true }
  | .MarkedForRemoval => { st with markedForRemoval := true }

/-- `FBaseRootMotionSourceStatus::UnSetFlag`. -/
def unSetFlag (st : FBaseRootMotionSourceStatus) :
    EBaseRootMotionSourceStatusFlags → FBaseRootMotionSourceStatus
  | .Prepared => { st with prepared := false }
  | .Finished => { st with finished := false }
  | .MarkedForRemoval => { st with markedForRemoval := false }

/-- `FBaseRootMotionSourceStatus::HasFlag`. -/
def hasFlag (st : FBaseRootMotionSourceStatus) :
    EBaseRootMotionSourceStatusFlags → Bool
  | .Prepared => st.prepared
  | .Finished => st.finished
  | .MarkedForRemoval => st.markedForRemoval

end FBaseRootMotionSourceStatus

inductive EBaseRootMotionSourceSettingsFlags where
  | DisablePartialEndTick
  | IgnoreZAccumulate
deriving DecidableEq, Repr

/-- `FBaseRootMotionSourceSettings` (flag bitset). -/
structure FBaseRootMotionSourceSettings where
  disablePartialEndTick : Bool := false
  ignoreZAccumulate : Bool := false
deriving DecidableEq, Repr

namespace FBaseRootMotionSourceSettings

def init : FBaseRootMotionSourceSettings := {}

/-- `FBaseRootMotionSourceSettings::SetFlag`. -/
def setFlag (st : FBaseRootMotionSourceSettings) :
    EBaseRootMotionSourceSettingsFlags → FBaseRootMotionSourceSettings
  | .DisablePartialEndTick => { st with disablePartialEndTick := true }
  | .IgnoreZAccumulate => { st with ignoreZAccumulate := true }

/-- `FBaseRootMotionSourceSettings::HasFlag`. -/
def hasFlag (st : FBaseRootMotionSourceSettings) :
    EBaseRootMotionSourceSettingsFlags → Bool
  | .DisablePartialEndTick => st.disablePartialEndTick
  | .IgnoreZAccumulate => st.ignoreZAccumulate

/-- `operator+=`: `Flags |= Other.Flags` (bitwise union). -/
def union (a b : FBaseRootMotionSourceSettings) : FBaseRootMotionSourceSettings :=
  ⟨a.disablePartialEndTick || b.disablePartialEndTick,
   a.ignoreZAccumulate || b.ignoreZAccumulate⟩

end FBaseRootMotionSourceSettings

/-- `EBaseRootMotionAccumulateMode`.  Modelled from the spec (§3):
`accumulateMode ∈ {Override, Additive}`; declared in the missing header. -/
inductive EBaseRootMotionAccumulateMode where
  | Override
  | Additive
deriving DecidableEq, Repr

/-- `EBaseRootMotionFinishVelocityMode`.  Modelled from the spec (§3):
"policy applied to character velocity at removal: none / clamp-to-max-speed /
set-to-value"; declared in the missing header. -/
inductive EBaseRootMotionFinishVelocityMode where
  | MaintainLastRootMotionVelocity
  | SetVelocity
  | ClampVelocity
deriving DecidableEq, Repr

/-- `FBaseRootMotionFinishVelocitySettings` (finish-velocity policy). -/
structure FBaseRootMotionFinishVelocitySettings where
  mode : EBaseRootMotionFinishVelocityMode := .MaintainLastRootMotionVelocity
  setVelocity : FVector := FVector.zero
  clampVelocity : ℚ := 0
deriving DecidableEq, Repr

/-- `EBaseRootMotionSourceID::Invalid`; the spec (§3) reserves the value 0 as
the invalid sentinel of the 16-bit id space. -/
def EBaseRootMotionSourceID_Invalid : ℕ := 0

/-! ## Variant payloads -/

/-- Variant fields of `FBaseRootMotionSource_ConstantForce`. -/
structure ConstantForceFields where
  force : FVector := FVector.zero
  strengthOverTime : Option ℕ := none
deriving DecidableEq, Repr

/-- Variant fields of `FBaseRootMotionSource_RadialForce`. -/
structure RadialForceFields where
  location : FVector := FVector.zero
  locationActor : Option ℕ := none
  radius : ℚ := 1
  strength : ℚ := 0
  bIsPush : Bool := true
  bNoZForce : Bool := false
  strengthDistanceFalloff : Option ℕ := none
  strengthOverTime : Option ℕ := none
  bUseFixedWorldDirection : Bool := false
  fixedWorldDirection : FRotator := FRotator.zero
deriving DecidableEq, Repr

/-- Variant fields of `FBaseRootMotionSource_MoveToForce`. -/
structure MoveToForceFields where
  startLocation : FVector := FVector.zero
  targetLocation : FVector := FVector.zero
  bRestrictSpeedToExpected : Bool := false
  pathOffsetCurve : Option ℕ := none
deriving DecidableEq, Repr

/-- Variant fields of `FBaseRootMotionSource_MoveToDynamicForce`. -/
structure MoveToDynamicForceFields where
  startLocation : FVector := FVector.zero
  initialTargetLocation : FVector := FVector.zero
  targetLocation : FVector := FVector.zero
  bRestrictSpeedToExpected : Bool := false
  pathOffsetCurve : Option ℕ := none
  timeMappingCurve : Option ℕ := none
deriving DecidableEq, Repr

/-- Variant fields of `FBaseRootMotionSource_JumpForce`.
(`SavedHalfwayLocation` is omitted: it is only read and written inside
`#if ROOT_MOTION_DEBUG` visualisation blocks.) -/
structure JumpForceFields where
  rotation : FRotator := FRotator.zero
  distance : ℚ := -1
  height : ℚ := -1
  bDisableTimeout : Bool := false
  pathOffsetCurve : Option ℕ := none
  timeMappingCurve : Option ℕ := none
deriving DecidableEq, Repr

/-- The closed set of concrete source types (`GetScriptStruct` values). -/
inductive RMSVariant where
  | base
  | constantForce (cf : ConstantForceFields)
  | radialForce (rf : RadialForceFields)
  | moveToForce (mt : MoveToForceFields)
  | moveToDynamicForce (md : MoveToDynamicForceFields)
  | jumpForce (jf : JumpForceFields)
deriving DecidableEq, Repr

/-- Script-struct tags (wire type tags / `GetScriptStruct()` identities). -/
inductive RMSTag where
  | base
  | constantForce
  | radialForce
  | moveToForce
  | moveToDynamicForce
  | jumpForce
deriving DecidableEq, Repr

def RMSVariant.tag : RMSVariant → RMSTag
  | .base => .base
  | .constantForce _ => .constantForce
  | .radialForce _ => .radialForce
  | .moveToForce _ => .moveToForce
  | .moveToDynamicForce _ => .moveToDynamicForce
  | .jumpForce _ => .jumpForce

/-! ## `FBaseRootMotionSource` -/

/-- `FBaseRootMotionSource` and its concrete variants (the C++ class
hierarchy flattened into shared fields plus a variant payload).
`RootMotionParams` is modelled by its translation component, the only part
the accumulation code reads (rotations are engine transforms outside the
claims' scope). -/
structure FBaseRootMotionSource where
  priority : ℤ := 0
  localID : ℕ := EBaseRootMotionSourceID_Invalid
  accumulateMode : EBaseRootMotionAccumulateMode := .Override
  instanceName : String := "None"
  startTime : ℚ := RootMotionSource_InvalidStartTime
  currentTime : ℚ := 0
  previousTime : ℚ := 0
  duration : ℚ := -1
  status : FBaseRootMotionSourceStatus := {}
  settings : FBaseRootMotionSourceSettings := {}
  bInLocalSpace : Bool := false
  bNeedsSimulatedCatchup : Bool := false
  bSimulatedNeedsSmoothing : Bool := false
  finishVelocityParams : FBaseRootMotionFinishVelocitySettings := {}
  /-- Translation of `RootMotionParams` (the stored contribution). -/
  rootMotionTranslation : FVector := FVector.zero
  /-- The concrete variant's own fields (C++ subclass data). -/
  variant : RMSVariant := .base
deriving DecidableEq, Repr

namespace FBaseRootMotionSource

/-- `GetScriptStruct()` — the concrete type tag. -/
def scriptStruct (s : FBaseRootMotionSource) : RMSTag := s.variant.tag

/-- `GetTime()`. -/
def getTime (s : FBaseRootMotionSource) : ℚ := s.currentTime

/-- `GetStartTime()`. -/
def getStartTime (s : FBaseRootMotionSource) : ℚ := s.startTime

/-- `IsStartTimeValid()`. -/
def isStartTimeValid (s : FBaseRootMotionSource) : Bool :=
  decide (s.startTime ≠ RootMotionSource_InvalidStartTime)

/-- `GetDuration()`. -/
def getDuration (s : FBaseRootMotionSource) : ℚ := s.duration

/-- `IsTimeOutEnabled()` — virtual: `FBaseRootMotionSource_JumpForce`
overrides it to return false while `bDisableTimeout` is set
(BaseRootMotionSource.cpp:1073-1080); the base returns `Duration >= 0.f`. -/
def isTimeOutEnabled (s : FBaseRootMotionSource) : Bool :=
  match s.variant with
  | .jumpForce jf => if jf.bDisableTimeout then false else decide (s.duration ≥ 0)
  | _ => decide (s.duration ≥ 0)

/-- `CheckTimeOut()` (BaseRootMotionSource.cpp:292-307). -/
def checkTimeOut (s : FBaseRootMotionSource) : FBaseRootMotionSource :=
  if s.isTimeOutEnabled then
    if s.currentTime ≥ s.duration then
      { s with status := s.status.setFlag .Finished }
    else
      { s with status := s.status.unSetFlag .Finished }
  else s

/-- `SetTime(NewTime)` (BaseRootMotionSource.cpp:284-290).
(`FBaseRootMotionSource_MoveToForce::SetTime` and the dynamic variant's
override just call the base version.) -/
def setTime (s : FBaseRootMotionSource) (newTime : ℚ) : FBaseRootMotionSource :=
  checkTimeOut { s with previousTime := s.currentTime, currentTime := newTime }

end FBaseRootMotionSource

/-! ## Structural matching (`Matches`, `MatchesAndHasSameState`) -/

/-- Variant-specific part of the virtual `Matches` overrides
(each override's comparisons after the base-class call). -/
def matchesVariant : RMSVariant → RMSVariant → Bool
  | .base, .base => true
  | .constantForce a, .constantForce b =>
    FVector.pointsAreNear a.force b.force (1 / 10) &&
      decide (a.strengthOverTime = b.strengthOverTime)
  | .radialForce a, .radialForce b =>
    decide (a.bIsPush = b.bIsPush) && decide (a.bNoZForce = b.bNoZForce) &&
      decide (a.bUseFixedWorldDirection = b.bUseFixedWorldDirection) &&
      decide (a.strengthDistanceFalloff = b.strengthDistanceFalloff) &&
      decide (a.strengthOverTime = b.strengthOverTime) &&
      (decide (a.locationActor = b.locationActor) ||
        FVector.pointsAreNear a.location b.location 1) &&
      FMath.isNearlyEqual a.radius b.radius UE_SMALL_NUMBER &&
      FMath.isNearlyEqual a.strength b.strength UE_SMALL_NUMBER &&
      FRotator.equals a.fixedWorldDirection b.fixedWorldDirection 3
  | .moveToForce a, .moveToForce b =>
    decide (a.bRestrictSpeedToExpected = b.bRestrictSpeedToExpected) &&
      decide (a.pathOffsetCurve = b.pathOffsetCurve) &&
      FVector.pointsAreNear a.targetLocation b.targetLocation (1 / 10)
  | .moveToDynamicForce a, .moveToDynamicForce b =>
    decide (a.bRestrictSpeedToExpected = b.bRestrictSpeedToExpected) &&
      decide (a.pathOffsetCurve = b.pathOffsetCurve) &&
      decide (a.timeMappingCurve = b.timeMappingCurve)
  | .jumpForce a, .jumpForce b =>
    decide (a.bDisableTimeout = b.bDisableTimeout) &&
      decide (a.pathOffsetCurve = b.pathOffsetCurve) &&
      decide (a.timeMappingCurve = b.timeMappingCurve) &&
      FMath.isNearlyEqual a.distance b.distance UE_SMALL_NUMBER &&
      FMath.isNearlyEqual a.height b.height UE_SMALL_NUMBER &&
      FRotator.equals a.rotation b.rotation 1
  | _, _ => false

/-- Variant-specific part of `MatchesAndHasSameState`: only
`FBaseRootMotionSource_MoveToDynamicForce` adds state comparisons
(start/target location within the default `FVector::Equals` tolerance,
`UE_KINDA_SMALL_NUMBER`); every other variant "has no unique state". -/
def sameStateVariant : RMSVariant → RMSVariant → Bool
  | .moveToDynamicForce a, .moveToDynamicForce b =>
    FVector.equals a.startLocation b.startLocation UE_KINDA_SMALL_NUMBER &&
      FVector.equals a.targetLocation b.targetLocation UE_KINDA_SMALL_NUMBER
  | _, _ => true

namespace FBaseRootMotionSource

/-- `Matches(Other)` (BaseRootMotionSource.cpp:231-240 plus the variant
overrides).  The C++ null check on `Other` lives at the call sites of the
embedding, which pass only valid sources. -/
def Matches (s other : FBaseRootMotionSource) : Bool :=
  decide (s.scriptStruct = other.scriptStruct) &&
    decide (s.priority = other.priority) &&
    decide (s.accumulateMode = other.accumulateMode) &&
    decide (s.bInLocalSpace = other.bInLocalSpace) &&
    decide (s.instanceName = other.instanceName) &&
    FMath.isNearlyEqual s.duration other.duration UE_SMALL_NUMBER &&
    matchesVariant s.variant other.variant

/-- `MatchesAndHasSameState(Other)` (BaseRootMotionSource.cpp:242-252 plus
the variant overrides): `Matches` and equal status flags and equal time. -/
def matchesAndHasSameState (s other : FBaseRootMotionSource) : Bool :=
  s.Matches other && decide (s.status = other.status) &&
    decide (s.getTime = other.getTime) &&
    sameStateVariant s.variant other.variant

/-- `UpdateStateFrom(SourceToTakeStateFrom, bMarkForSimulatedCatchup)`
(BaseRootMotionSource.cpp:254-282 plus the
`FBaseRootMotionSource_MoveToDynamicForce` override, which additionally
copies the start/target locations).  Returning `none` models the
`return false` path taken when the concrete types differ (after the
`checkf` diagnostic); the source is then left unmodified. -/
def updateStateFrom (s other : FBaseRootMotionSource)
    (bMarkForSimulatedCatchup : Bool) : Option FBaseRootMotionSource :=
  if s.scriptStruct = other.scriptStruct then
    let s := { s with bNeedsSimulatedCatchup := bMarkForSimulatedCatchup }
    let bWasMarkedForRemoval := s.status.hasFlag .MarkedForRemoval
    let s := { s with status := other.status }
    let s := if bWasMarkedForRemoval then
        { s with status := s.status.setFlag .MarkedForRemoval }
      else s
    let s := s.setTime other.getTime
    let s := match s.variant, other.variant with
      | .moveToDynamicForce md, .moveToDynamicForce omd =>
        let md := { md with startLocation := omd.startLocation,
                            targetLocation := omd.targetLocation }
        { s with variant := RMSVariant.moveToDynamicForce md }
      | _, _ => s
    some s
  else
    none

end FBaseRootMotionSource

/-- Default construction of each concrete variant (the C++ default
constructors; the `FBaseRootMotionSource_ConstantForce` and
`FBaseRootMotionSource_JumpForce` constructors additionally set the
`DisablePartialEndTick` settings flag). -/
def defaultSource : RMSTag → FBaseRootMotionSource
  | .base => {}
  | .constantForce =>
    { settings := FBaseRootMotionSourceSettings.init.setFlag .DisablePartialEndTick,
      variant := .constantForce {} }
  | .radialForce => { variant := .radialForce {} }
  | .moveToForce => { variant := .moveToForce {} }
  | .moveToDynamicForce => { variant := .moveToDynamicForce {} }
  | .jumpForce =>
    { settings := FBaseRootMotionSourceSettings.init.setFlag .DisablePartialEndTick,
      variant := .jumpForce {} }

/-! ## Character / movement-component state consumed by the core -/

/-- The slice of `ABaseCharacter` state the root-motion core reads. -/
structure ABaseCharacterState where
  /-- `GetActorLocation()`. -/
  actorLocation : FVector := FVector.zero
  /-- The `CharacterMovementTime` value that group `PrepareRootMotion`
  derives from the local role's prediction data
  (BaseRootMotionSource.cpp:1526-1554); negative models "no valid data". -/
  characterMovementTime : ℚ := -1

/-- The slice of `UBaseCharacterMovementComponent` state the core reads and
writes. -/
structure UBaseCharacterMovementComponentState where
  /-- `Velocity` (read/write shared state). -/
  velocity : FVector := FVector.zero
  /-- `UpdatedComponent`: `none` models a null component pointer; `some rot`
  models a valid component whose world rotation
  (`GetComponentToWorld().GetRotation()`) rotates vectors by `rot`. -/
  updatedComponentRotation : Option (FVector → FVector) := none

/-! ## Per-variant `PrepareRootMotion` -/

/-- The strength computation of
`FBaseRootMotionSource_RadialForce::PrepareRootMotion`
(BaseRootMotionSource.cpp:561-579): `Strength` scaled by an additive factor
that starts at 1, subtracts `1 - DistanceFactor` and `1 - TimeFactor` for
whichever falloff curves are present, and is clamped to `[0, 1]`. -/
def radialForceCurrentStrength (env : EngineEnv) (rf : RadialForceFields)
    (duration time distance : ℚ) : ℚ :=
  let additiveStrengthFactor : ℚ := 1
  let additiveStrengthFactor :=
    match rf.strengthDistanceFalloff with
    | some c =>
      let distanceFactor :=
        env.curveFloatValue c (FMath.clamp (distance / rf.radius) 0 1)
      additiveStrengthFactor - (1 - distanceFactor)
    | none => additiveStrengthFactor
  let additiveStrengthFactor :=
    match rf.strengthOverTime with
    | some c =>
      let timeValue := if duration > 0 then FMath.clamp (time / duration) 0 1 else time
      let timeFactor := env.curveFloatValue c timeValue
      additiveStrengthFactor - (1 - timeFactor)
    | none => additiveStrengthFactor
  rf.strength * FMath.clamp additiveStrengthFactor 0 1

/-- `FBaseRootMotionSource_MoveToForce::GetPathOffsetInWorldSpace`
(BaseRootMotionSource.cpp:721-733). -/
def moveToGetPathOffsetInWorldSpace (env : EngineEnv) (mt : MoveToForceFields)
    (moveFraction : ℚ) : FVector :=
  match mt.pathOffsetCurve with
  | some c =>
    let pathOffsetInFacingSpace := EvaluateVectorCurveAtFraction env c moveFraction
    let facingRotation := env.vectorToRotator (mt.targetLocation - mt.startLocation)
    env.rotateVector { facingRotation with pitch := 0 } pathOffsetInFacingSpace
  | none => FVector.zero

/-- `FBaseRootMotionSource_MoveToDynamicForce::GetPathOffsetInWorldSpace`
(BaseRootMotionSource.cpp:919-931). -/
def moveToDynamicGetPathOffsetInWorldSpace (env : EngineEnv)
    (md : MoveToDynamicForceFields) (moveFraction : ℚ) : FVector :=
  match md.pathOffsetCurve with
  | some c =>
    let pathOffsetInFacingSpace := EvaluateVectorCurveAtFraction env c moveFraction
    let facingRotation := env.vectorToRotator (md.targetLocation - md.startLocation)
    env.rotateVector { facingRotation with pitch := 0 } pathOffsetInFacingSpace
  | none => FVector.zero

/-- `FBaseRootMotionSource_JumpForce::GetPathOffset`
(BaseRootMotionSource.cpp:1127-1152): path-offset curve, or the default
inverted-parabola `Z = -(2f-1)^2 + 1`, with `Z` scaled by `Height` when
`Height >= 0`. -/
def jumpGetPathOffset (env : EngineEnv) (jf : JumpForceFields)
    (moveFraction : ℚ) : FVector :=
  let pathOffset :=
    match jf.pathOffsetCurve with
    | some c => EvaluateVectorCurveAtFraction env c moveFraction
    | none =>
      let phi := 2 * moveFraction - 1
      let zval := -(phi * phi) + 1
      { FVector.zero with z := zval }
  if jf.height ≥ 0 then { pathOffset with z := pathOffset.z * jf.height }
  else pathOffset

/-- `FBaseRootMotionSource_JumpForce::GetRelativeLocation`
(BaseRootMotionSource.cpp:1154-1163). -/
def jumpGetRelativeLocation (env : EngineEnv) (jf : JumpForceFields)
    (moveFraction : ℚ) : FVector :=
  let facingRotation := { jf.rotation with pitch := (0 : ℚ) }
  let relativeLocationFacingSpace :=
    (⟨moveFraction * jf.distance, 0, 0⟩ : FVector) + jumpGetPathOffset env jf moveFraction
  env.rotateVector facingRotation relativeLocationFacingSpace

/-- `FBaseRootMotionSource_ConstantForce::PrepareRootMotion`
(BaseRootMotionSource.cpp:405-445). -/
def prepareConstantForce (env : EngineEnv) (simulationTime movementTickTime : ℚ)
    (s : FBaseRootMotionSource) (cf : ConstantForceFields) : FBaseRootMotionSource :=
  let newTranslation := cf.force
  let newTranslation :=
    match cf.strengthOverTime with
    | some c =>
      let timeValue :=
        if s.duration > 0 then FMath.clamp (s.getTime / s.duration) 0 1 else s.getTime
      let timeFactor := env.curveFloatValue c timeValue
      newTranslation.scale timeFactor
    | none => newTranslation
  let multiplier :=
    if movementTickTime > UE_SMALL_NUMBER then simulationTime / movementTickTime else 1
  let newTranslation := newTranslation.scale multiplier
  ({ s with rootMotionTranslation := newTranslation }).setTime (s.getTime + simulationTime)

/-- `FBaseRootMotionSource_RadialForce::PrepareRootMotion`
(BaseRootMotionSource.cpp:545-617). -/
def prepareRadialForce (env : EngineEnv) (simulationTime movementTickTime : ℚ)
    (ch : ABaseCharacterState) (s : FBaseRootMotionSource)
    (rf : RadialForceFields) : FBaseRootMotionSource :=
  let characterLocation := ch.actorLocation
  let forceLocation :=
    match rf.locationActor with
    | some a => env.actorLocation a
    | none => rf.location
  let distance := env.dist forceLocation characterLocation
  let force :=
    if distance < rf.radius then
      let currentStrength := radialForceCurrentStrength env rf s.duration s.getTime distance
      if rf.bUseFixedWorldDirection then
        (env.rotatorVector rf.fixedWorldDirection).scale currentStrength
      else
        let f := (env.safeNormal (forceLocation - characterLocation)).scale currentStrength
        if rf.bIsPush then f.scale (-1) else f
    else FVector.zero
  let force := if rf.bNoZForce then { force with z := 0 } else force
  let newTranslation :=
    if simulationTime ≠ movementTickTime ∧ movementTickTime > UE_SMALL_NUMBER then
      force.scale (simulationTime / movementTickTime)
    else force
  ({ s with rootMotionTranslation := newTranslation }).setTime (s.getTime + simulationTime)

/-- `FBaseRootMotionSource_MoveToForce::PrepareRootMotion`
(BaseRootMotionSource.cpp:735-806).  The `checkf` on non-positive duration is
a fatal programming-error assertion; the else branch leaves the cleared
params. -/
def prepareMoveToForce (env : EngineEnv) (simulationTime movementTickTime : ℚ)
    (ch : ABaseCharacterState) (s : FBaseRootMotionSource)
    (mt : MoveToForceFields) : FBaseRootMotionSource :=
  let newTranslation :=
    if s.duration > UE_SMALL_NUMBER ∧ movementTickTime > UE_SMALL_NUMBER then
      let moveFraction := (s.getTime + simulationTime) / s.duration
      let currentTargetLocation :=
        FVector.lerpV mt.startLocation mt.targetLocation moveFraction +
          moveToGetPathOffsetInWorldSpace env mt moveFraction
      let currentLocation := ch.actorLocation
      let force := (currentTargetLocation - currentLocation).divQ movementTickTime
      if mt.bRestrictSpeedToExpected ∧ ¬(force.isNearlyZero UE_KINDA_SMALL_NUMBER) then
        let previousMoveFraction := s.getTime / s.duration
        let currentExpectedLocation :=
          FVector.lerpV mt.startLocation mt.targetLocation previousMoveFraction +
            moveToGetPathOffsetInWorldSpace env mt previousMoveFraction
        let expectedForce := (currentTargetLocation - currentExpectedLocation).divQ movementTickTime
        let expectedSpeed := env.size expectedForce
        let currentSpeedSqr := force.sizeSquared
        let errorAllowance : ℚ := 1 / 2
        if currentSpeedSqr > FMath.square (expectedSpeed + errorAllowance) then
          (env.normalize force).scale expectedSpeed
        else force
      else force
    else FVector.zero
  ({ s with rootMotionTranslation := newTranslation }).setTime (s.getTime + simulationTime)

/-- `FBaseRootMotionSource_MoveToDynamicForce::PrepareRootMotion`
(BaseRootMotionSource.cpp:933-1014). -/
def prepareMoveToDynamicForce (env : EngineEnv) (simulationTime movementTickTime : ℚ)
    (ch : ABaseCharacterState) (s : FBaseRootMotionSource)
    (md : MoveToDynamicForceFields) : FBaseRootMotionSource :=
  let newTranslation :=
    if s.duration > UE_SMALL_NUMBER ∧ movementTickTime > UE_SMALL_NUMBER then
      let moveFraction := (s.getTime + simulationTime) / s.duration
      let moveFraction :=
        match md.timeMappingCurve with
        | some c => EvaluateFloatCurveAtFraction env c moveFraction
        | none => moveFraction
      let currentTargetLocation :=
        FVector.lerpV md.startLocation md.targetLocation moveFraction +
          moveToDynamicGetPathOffsetInWorldSpace env md moveFraction
      let currentLocation := ch.actorLocation
      let force := (currentTargetLocation - currentLocation).divQ movementTickTime
      if md.bRestrictSpeedToExpected ∧ ¬(force.isNearlyZero UE_KINDA_SMALL_NUMBER) then
        let previousMoveFraction := s.getTime / s.duration
        let previousMoveFraction :=
          match md.timeMappingCurve with
          | some c => EvaluateFloatCurveAtFraction env c previousMoveFraction
          | none => previousMoveFraction
        let currentExpectedLocation :=
          FVector.lerpV md.startLocation md.targetLocation previousMoveFraction +
            moveToDynamicGetPathOffsetInWorldSpace env md previousMoveFraction
        let expectedForce := (currentTargetLocation - currentExpectedLocation).divQ movementTickTime
        let expectedSpeed := env.size expectedForce
        let currentSpeedSqr := force.sizeSquared
        let errorAllowance : ℚ := 1 / 2
        if currentSpeedSqr > FMath.square (expectedSpeed + errorAllowance) then
          (env.normalize force).scale expectedSpeed
        else force
      else force
    else FVector.zero
  ({ s with rootMotionTranslation := newTranslation }).setTime (s.getTime + simulationTime)

/-- `FBaseRootMotionSource_JumpForce::PrepareRootMotion`
(BaseRootMotionSource.cpp:1165-1265). -/
def prepareJumpForce (env : EngineEnv) (simulationTime movementTickTime : ℚ)
    (s : FBaseRootMotionSource) (jf : JumpForceFields) : FBaseRootMotionSource :=
  let newTranslation :=
    if s.duration > UE_SMALL_NUMBER ∧ movementTickTime > UE_SMALL_NUMBER ∧
        simulationTime > UE_SMALL_NUMBER then
      let currentTimeFraction := s.getTime / s.duration
      let targetTimeFraction := (s.getTime + simulationTime) / s.duration
      let p :=
        if targetTimeFraction > 1 then
          let timeFractionPastAllowable := targetTimeFraction - 1
          (currentTimeFraction - timeFractionPastAllowable,
           targetTimeFraction - timeFractionPastAllowable)
        else (currentTimeFraction, targetTimeFraction)
      let currentMoveFraction := p.1
      let targetMoveFraction := p.2
      let q :=
        match jf.timeMappingCurve with
        | some c =>
          (EvaluateFloatCurveAtFraction env c currentMoveFraction,
           EvaluateFloatCurveAtFraction env c targetMoveFraction)
        | none => (currentMoveFraction, targetMoveFraction)
      let currentRelativeLocation := jumpGetRelativeLocation env jf q.1
      let targetRelativeLocation := jumpGetRelativeLocation env jf q.2
      (targetRelativeLocation - currentRelativeLocation).divQ movementTickTime
    else FVector.zero
  ({ s with rootMotionTranslation := newTranslation }).setTime (s.getTime + simulationTime)

/-- Virtual dispatch of `PrepareRootMotion(SimulationTime, MovementTickTime,
Character, MoveComponent)` over the concrete variants.  The base
implementation (BaseRootMotionSource.cpp:309-318) only clears the params and
does not advance time. -/
def prepareRootMotionSource (env : EngineEnv) (simulationTime movementTickTime : ℚ)
    (ch : ABaseCharacterState) (s : FBaseRootMotionSource) : FBaseRootMotionSource :=
  match s.variant with
  | .base => { s with rootMotionTranslation := FVector.zero }
  | .constantForce cf => prepareConstantForce env simulationTime movementTickTime s cf
  | .radialForce rf => prepareRadialForce env simulationTime movementTickTime ch s rf
  | .moveToForce mt => prepareMoveToForce env simulationTime movementTickTime ch s mt
  | .moveToDynamicForce md => prepareMoveToDynamicForce env simulationTime movementTickTime ch s md
  | .jumpForce jf => prepareJumpForce env simulationTime movementTickTime s jf

/-! ## `FBaseRootMotionSourceGroup` -/

/-- `FBaseRootMotionSourceGroup` (BaseRootMotionSource.cpp:1307-1314). -/
structure FBaseRootMotionSourceGroup where
  rootMotionSources : List (Option FBaseRootMotionSource) := []
  pendingAddRootMotionSources : List (Option FBaseRootMotionSource) := []
  bHasAdditiveSources : Bool := false
  bHasOverrideSources : Bool := false
  bHasOverrideSourcesWithIgnoreZAccumulate : Bool := false
  bIsAdditiveVelocityApplied : Bool := false
  lastPreAdditiveVelocity : FVector := FVector.zero
  lastAccumulatedSettings : FBaseRootMotionSourceSettings := {}
deriving DecidableEq, Repr

/-- `FBaseRootMotionSourceGroup::AccumulateRootMotionVelocityFromSource`
(BaseRootMotionSource.cpp:1702-1734).  `DeltaTime` and `Character` are taken
by the C++ function but never read by its body, so they are omitted. -/
def accumulateRootMotionVelocityFromSource (mc : UBaseCharacterMovementComponentState)
    (src : FBaseRootMotionSource) (inOutVelocity : FVector) : FVector :=
  let rootMotionVelocity :=
    match src.bInLocalSpace, mc.updatedComponentRotation with
    | true, some rot => rot src.rootMotionTranslation
    | _, _ => src.rootMotionTranslation
  let inputVelocity := inOutVelocity
  let v :=
    match src.accumulateMode with
    | .Override => rootMotionVelocity
    | .Additive => inOutVelocity + rootMotionVelocity
  if src.settings.hasFlag .IgnoreZAccumulate then { v with z := inputVelocity.z } else v

/-- `FBaseRootMotionSourceGroup::AccumulateRootMotionVelocity`
(BaseRootMotionSource.cpp:1675-1700): scan the sources of the requested
accumulate mode; an Override source is applied and then the loop breaks,
Additive sources all accumulate. -/
def accumulateRootMotionVelocity (rootMotionType : EBaseRootMotionAccumulateMode)
    (mc : UBaseCharacterMovementComponentState) :
    List (Option FBaseRootMotionSource) → FVector → FVector
  | [], v => v
  | none :: rest, v => accumulateRootMotionVelocity rootMotionType mc rest v
  | some src :: rest, v =>
    if src.accumulateMode = rootMotionType then
      let v := accumulateRootMotionVelocityFromSource mc src v
      if src.accumulateMode = .Override then v
      else accumulateRootMotionVelocity rootMotionType mc rest v
    else accumulateRootMotionVelocity rootMotionType mc rest v

namespace FBaseRootMotionSourceGroup

/-- `AccumulateOverrideRootMotionVelocity` (BaseRootMotionSource.cpp:1653-1662). -/
def accumulateOverrideRootMotionVelocity (g : FBaseRootMotionSourceGroup)
    (mc : UBaseCharacterMovementComponentState) (inOutVelocity : FVector) : FVector :=
  accumulateRootMotionVelocity .Override mc g.rootMotionSources inOutVelocity

/-- `AccumulateAdditiveRootMotionVelocity` (BaseRootMotionSource.cpp:1664-1673). -/
def accumulateAdditiveRootMotionVelocity (g : FBaseRootMotionSourceGroup)
    (mc : UBaseCharacterMovementComponentState) (inOutVelocity : FVector) : FVector :=
  accumulateRootMotionVelocity .Additive mc g.rootMotionSources inOutVelocity

end FBaseRootMotionSourceGroup

/-- One removal's side effects and the recursive `RemoveAll` scan over the
active sources in `CleanUpInvalidRootMotion` (BaseRootMotionSource.cpp:
1346-1417).  Returns (remaining entries, `Velocity`,
`LastPreAdditiveVelocity`). -/
def cleanUpActiveSources (env : EngineEnv) (mc : UBaseCharacterMovementComponentState)
    (bIsAdditiveVelocityApplied : Bool) :
    List (Option FBaseRootMotionSource) → FVector → FVector →
      List (Option FBaseRootMotionSource) × FVector × FVector
  | [], velocity, lastPre => ([], velocity, lastPre)
  | none :: rest, velocity, lastPre =>
    -- invalid shared pointers fall through the `IsValid()` guard and are removed
    cleanUpActiveSources env mc bIsAdditiveVelocityApplied rest velocity lastPre
  | some src :: rest, velocity, lastPre =>
    if ¬ src.status.hasFlag .MarkedForRemoval ∧ ¬ src.status.hasFlag .Finished then
      let r := cleanUpActiveSources env mc bIsAdditiveVelocityApplied rest velocity lastPre
      (some src :: r.1, r.2)
    else
      -- additive sources removed while additive velocity is applied re-accumulate
      -- their contribution into LastPreAdditiveVelocity
      let lastPre :=
        if src.accumulateMode = .Additive ∧ bIsAdditiveVelocityApplied then
          accumulateRootMotionVelocityFromSource mc src lastPre
        else lastPre
      -- FinishVelocity options
      let p :=
        if src.finishVelocityParams.mode = .ClampVelocity then
          let velocity := env.clampedToMaxSize2D velocity src.finishVelocityParams.clampVelocity
          let velocity := { velocity with z := FMath.minQ velocity.z src.finishVelocityParams.clampVelocity }
          let lastPre :=
            if bIsAdditiveVelocityApplied then
              let lp := env.clampedToMaxSize2D lastPre src.finishVelocityParams.clampVelocity
              { lp with z := FMath.minQ lp.z src.finishVelocityParams.clampVelocity }
            else lastPre
          (velocity, lastPre)
        else if src.finishVelocityParams.mode = .SetVelocity then
          (src.finishVelocityParams.setVelocity,
           if bIsAdditiveVelocityApplied then src.finishVelocityParams.setVelocity else lastPre)
        else (velocity, lastPre)
      cleanUpActiveSources env mc bIsAdditiveVelocityApplied rest p.1 p.2

namespace FBaseRootMotionSourceGroup

/-- `CleanUpInvalidRootMotion(DeltaTime, Character, MoveComponent)`
(BaseRootMotionSource.cpp:1346-1443); `DeltaTime`/`Character` are only used
by logging.  Returns the group together with the movement component (whose
`Velocity` the finish-velocity policies may write). -/
def cleanUpInvalidRootMotion (env : EngineEnv) (g : FBaseRootMotionSourceGroup)
    (mc : UBaseCharacterMovementComponentState) :
    FBaseRootMotionSourceGroup × UBaseCharacterMovementComponentState :=
  let r := cleanUpActiveSources env mc g.bIsAdditiveVelocityApplied
    g.rootMotionSources mc.velocity g.lastPreAdditiveVelocity
  let pending := g.pendingAddRootMotionSources.filter fun e =>
    match e with
    | some src =>
      !(src.status.hasFlag .MarkedForRemoval) && !(src.status.hasFlag .Finished)
    | none => false
  ({ g with rootMotionSources := r.1,
            pendingAddRootMotionSources := pending,
            lastPreAdditiveVelocity := r.2.2 },
   { mc with velocity := r.2.1 })

end FBaseRootMotionSourceGroup

/-- The `StableSort` comparator of group `PrepareRootMotion`
(BaseRootMotionSource.cpp:1456-1464): strict priority-descending for valid
pointers; the invalid-pointer branch is a `checkf` diagnostic that returns
`true`. -/
def rmsPriorityCompare : Option FBaseRootMotionSource → Option FBaseRootMotionSource → Bool
  | some l, some r => decide (l.priority > r.priority)
  | _, _ => true

/-- The sort step of group `PrepareRootMotion` (BaseRootMotionSource.cpp:
1453-1465).  `TArray::StableSort` with a strict predicate `p` is a stable
sort with respect to the total preorder `fun a b => ¬ p b a`; `List.mergeSort`
is the stable sort of the Lean library. -/
def sortByPriority (l : List (Option FBaseRootMotionSource)) :
    List (Option FBaseRootMotionSource) :=
  if l.length > 1 then l.mergeSort (fun a b => ! rmsPriorityCompare b a) else l

/-- The adjusted `SimulationTime` computed per source by group
`PrepareRootMotion` before invoking the source's own prepare
(BaseRootMotionSource.cpp:1481-1604): simulated catch-up extension, start-
partial-tick reduction, end-partial-tick truncation, then the floor at
zero. -/
def adjustedSimulationTime (deltaTime : ℚ) (ch : ABaseCharacterState)
    (src : FBaseRootMotionSource) : ℚ :=
  let simulationTime := deltaTime
  -- catch-up after an authoritative correction (cpp:1485-1516)
  let simulationTime :=
    if src.bNeedsSimulatedCatchup then
      let correctionDelta := src.previousTime - src.currentTime
      if correctionDelta > 0 then
        let maxTimeDeltaCorrectionPercent : ℚ := 1 / 2
        let maxTimeDeltaCorrectionAbsolute : ℚ := 1 / 2
        simulationTime +
          FMath.minQ (correctionDelta * maxTimeDeltaCorrectionPercent)
            maxTimeDeltaCorrectionAbsolute
      else simulationTime
    else simulationTime
  -- start of root motion: StartTime vs. the character movement clock
  -- (cpp:1520-1583; the role-specific clock retrieval is collapsed into
  -- `ch.characterMovementTime`, negative when no prediction data is valid)
  let simulationTime :=
    if src.getTime = 0 ∧ src.isStartTimeValid then
      let characterMovementTime := ch.characterMovementTime
      if characterMovementTime ≥ 0 ∧ src.getStartTime > characterMovementTime then
        let endCharacterMovementTime := characterMovementTime + simulationTime
        if endCharacterMovementTime ≤ src.getStartTime then 0
        else endCharacterMovementTime - src.getStartTime
      else simulationTime
    else simulationTime
  -- end of root motion (cpp:1585-1600)
  let simulationTime :=
    if src.isTimeOutEnabled ∧ ¬ src.settings.hasFlag .DisablePartialEndTick then
      if src.getTime + simulationTime ≥ src.getDuration then
        src.getDuration - src.getTime + UE_KINDA_SMALL_NUMBER
      else simulationTime
    else simulationTime
  -- sanity check (cpp:1604)
  FMath.maxQ simulationTime 0

/-- The per-source body of the preparation loop of group `PrepareRootMotion`
(BaseRootMotionSource.cpp:1475-1649, minus the settings/mode bookkeeping
handled at the group level). -/
def prepareStep (env : EngineEnv) (deltaTime : ℚ) (ch : ABaseCharacterState)
    (bForcePrepareAll : Bool) :
    Option FBaseRootMotionSource → Option FBaseRootMotionSource
  | none => none
  | some src =>
    if !(src.status.hasFlag .Prepared) || bForcePrepareAll then
      let simulationTime := adjustedSimulationTime deltaTime ch src
      let src := { src with bSimulatedNeedsSmoothing := false }
      let src := prepareRootMotionSource env simulationTime deltaTime ch src
      let src := { src with status := src.status.setFlag .Prepared,
                            bNeedsSimulatedCatchup := false }
      some src
    else some src

namespace FBaseRootMotionSourceGroup

/-- `PrepareRootMotion(DeltaTime, Character, MoveComponent, bForcePrepareAll)`
(BaseRootMotionSource.cpp:1445-1651): append pending sources, stable-sort by
priority, prepare each unprepared (or all, when forced) source with its
adjusted simulation time, accumulate the settings union, and recompute the
cached has-additive/has-override booleans.  The variant prepares never touch
`Settings`, `AccumulateMode` or `Priority`, so the settings union over the
pre-prepare sources and the mode scan over the post-prepare sources read the
same values the single C++ loop reads. -/
def prepareRootMotion (env : EngineEnv) (deltaTime : ℚ) (ch : ABaseCharacterState)
    (bForcePrepareAll : Bool) (g : FBaseRootMotionSourceGroup) :
    FBaseRootMotionSourceGroup :=
  let sources := g.rootMotionSources ++ g.pendingAddRootMotionSources
  let sources := sortByPriority sources
  let lastAccumulatedSettings := sources.foldl
    (fun acc e =>
      match e with
      | some src =>
        if !(src.status.hasFlag .Prepared) || bForcePrepareAll then
          acc.union src.settings
        else acc
      | none => acc)
    FBaseRootMotionSourceSettings.init
  let prepared := sources.map (prepareStep env deltaTime ch bForcePrepareAll)
  let bHasAdditiveSources := prepared.any fun e =>
    match e with
    | some src => decide (src.accumulateMode = .Additive)
    | none => false
  let bHasOverrideSources := prepared.any fun e =>
    match e with
    | some src => decide (src.accumulateMode = .Override)
    | none => false
  let bHasOverrideSourcesWithIgnoreZAccumulate := prepared.any fun e =>
    match e with
    | some src =>
      decide (src.accumulateMode = .Override) && src.settings.hasFlag .IgnoreZAccumulate
    | none => false
  { g with rootMotionSources := prepared,
           pendingAddRootMotionSources := [],
           bHasAdditiveSources := bHasAdditiveSources,
           bHasOverrideSources := bHasOverrideSources,
           bHasOverrideSourcesWithIgnoreZAccumulate := bHasOverrideSourcesWithIgnoreZAccumulate,
           lastAccumulatedSettings := lastAccumulatedSettings }

/-- `ApplyRootMotionSource` (BaseRootMotionSource.cpp:1809-1835).  The
function-local static `LocalIDGenerator` (uint16, wrapping, skipping the
invalid sentinel) is threaded explicitly; returns (group, new generator
value, assigned id). -/
def applyRootMotionSource (g : FBaseRootMotionSourceGroup)
    (localIDGenerator : ℕ) (src : FBaseRootMotionSource) :
    FBaseRootMotionSourceGroup × ℕ × ℕ :=
  let gen := (localIDGenerator + 1) % 65536
  let gen := if gen = EBaseRootMotionSourceID_Invalid then (gen + 1) % 65536 else gen
  let localID := gen
  ({ g with pendingAddRootMotionSources :=
      g.pendingAddRootMotionSources ++ [some { src with localID := localID }] },
   gen, localID)

end FBaseRootMotionSourceGroup

/-- The per-index comparison loops of group `operator==`
(BaseRootMotionSource.cpp:2246-2279): validity must agree at each index and
valid pairs must `MatchesAndHasSameState`.  (The callers compare lengths
first.) -/
def entriesMatchAndHaveSameState :
    List (Option FBaseRootMotionSource) → List (Option FBaseRootMotionSource) → Bool
  | [], [] => true
  | some x :: xs, some y :: ys => x.matchesAndHasSameState y && entriesMatchAndHaveSameState xs ys
  | none :: xs, none :: ys => entriesMatchAndHaveSameState xs ys
  | _, _ => false

namespace FBaseRootMotionSourceGroup

/-- `operator==` (BaseRootMotionSource.cpp:2226-2281). -/
def groupEq (a b : FBaseRootMotionSourceGroup) : Bool :=
  if a.bHasAdditiveSources ≠ b.bHasAdditiveSources ∨
      a.bHasOverrideSources ≠ b.bHasOverrideSources ∨
      a.bHasOverrideSourcesWithIgnoreZAccumulate ≠ b.bHasOverrideSourcesWithIgnoreZAccumulate ∨
      a.bIsAdditiveVelocityApplied ≠ b.bIsAdditiveVelocityApplied ∨
      ¬ FVector.equals a.lastPreAdditiveVelocity b.lastPreAdditiveVelocity 1 then
    false
  else if a.rootMotionSources.length ≠ b.rootMotionSources.length then false
  else if a.pendingAddRootMotionSources.length ≠ b.pendingAddRootMotionSources.length then false
  else
    entriesMatchAndHaveSameState a.rootMotionSources b.rootMotionSources &&
      entriesMatchAndHaveSameState a.pendingAddRootMotionSources b.pendingAddRootMotionSources

end FBaseRootMotionSourceGroup

/-! ## Wire serialization layer

`FArchive` is modelled as a typed item stream with an error flag.  Writing
appends items; reading consumes the head item when its type matches the
requested one, and otherwise (or when the stream is exhausted) flags the
archive as errored and yields the type's zero value. -/

/-- The `UScriptStruct` reference read by `NetSerializeRMSArray` through a
`TCheckedObjPtr` (BaseRootMotionSource.cpp:2043-2045): a strict descendant of
`FBaseRootMotionSource`, the base struct itself, some foreign resolved
struct, a null reference (valid-and-null: neither `IsValid` nor `IsError`),
or a reference whose resolution errored (`IsError`). -/
inductive WireStructRef where
  | rms (t : RMSTag)
  | baseStruct
  | foreign
  | nullRef
  | errorRef
deriving DecidableEq, Repr

/-- One serialized item. -/
inductive WireVal where
  | wInt (n : ℤ)
  | wU16 (n : ℕ)
  | wByte (n : ℕ)
  | wName (s : String)
  | wFloat (q : ℚ)
  | wBool (b : Bool)
  | wVec (v : FVector)
  | wRot (r : FRotator)
  | wObj (o : Option ℕ)
  | wStatus (st : FBaseRootMotionSourceStatus)
  | wSettings (st : FBaseRootMotionSourceSettings)
  | wStruct (r : WireStructRef)
deriving DecidableEq, Repr

/-- The archive (stream plus sticky error flag). -/
structure WireArchive where
  items : List WireVal := []
  err : Bool := false
deriving DecidableEq, Repr

namespace WireArchive

/-- `FArchive::SetError()`. -/
def setError (ar : WireArchive) : WireArchive := { ar with err := true }

/-- Generic read: on an errored archive nothing is consumed and the zero
value is produced; a type mismatch or exhausted stream errors the archive. -/
def readWith (ar : WireArchive) (f : WireVal → Option α) (dflt : α) : α × WireArchive :=
  if ar.err then (dflt, ar)
  else
    match ar.items with
    | v :: rest =>
      match f v with
      | some a => (a, { items := rest, err := false })
      | none => (dflt, ar.setError)
    | [] => (dflt, ar.setError)

def readInt (ar : WireArchive) : ℤ × WireArchive :=
  ar.readWith (fun v => match v with | .wInt n => some n | _ => none) 0

def readU16 (ar : WireArchive) : ℕ × WireArchive :=
  ar.readWith (fun v => match v with | .wU16 n => some n | _ => none) 0

def readByte (ar : WireArchive) : ℕ × WireArchive :=
  ar.readWith (fun v => match v with | .wByte n => some n | _ => none) 0

def readName (ar : WireArchive) : String × WireArchive :=
  ar.readWith (fun v => match v with | .wName s => some s | _ => none) "None"

def readFloat (ar : WireArchive) : ℚ × WireArchive :=
  ar.readWith (fun v => match v with | .wFloat q => some q | _ => none) 0

def readBool (ar : WireArchive) : Bool × WireArchive :=
  ar.readWith (fun v => match v with | .wBool b => some b | _ => none) false

def readVec (ar : WireArchive) : FVector × WireArchive :=
  ar.readWith (fun v => match v with | .wVec w => some w | _ => none) FVector.zero

def readRot (ar : WireArchive) : FRotator × WireArchive :=
  ar.readWith (fun v => match v with | .wRot r => some r | _ => none) FRotator.zero

def readObj (ar : WireArchive) : Option ℕ × WireArchive :=
  ar.readWith (fun v => match v with | .wObj o => some o | _ => none) none

def readStatus (ar : WireArchive) : FBaseRootMotionSourceStatus × WireArchive :=
  ar.readWith (fun v => match v with | .wStatus st => some st | _ => none) {}

def readSettings (ar : WireArchive) : FBaseRootMotionSourceSettings × WireArchive :=
  ar.readWith (fun v => match v with | .wSettings st => some st | _ => none) {}

def readStructRef (ar : WireArchive) : WireStructRef × WireArchive :=
  ar.readWith (fun v => match v with | .wStruct r => some r | _ => none) .errorRef

end WireArchive

/-- The `(uint8)AccumulateMode` cast used by `NetSerialize`.  Modelled from
the spec's enum order (Override, Additive); the numeric values live in the
missing header. -/
def accumulateModeToByte : EBaseRootMotionAccumulateMode → ℕ
  | .Override => 0
  | .Additive => 1

/-- The inverse `(EBaseRootMotionAccumulateMode)` cast applied after
reading. -/
def byteToAccumulateMode (n : ℕ) : EBaseRootMotionAccumulateMode :=
  if n = 0 then .Override else .Additive

/-- Saving side of `FBaseRootMotionSource::NetSerialize`
(BaseRootMotionSource.cpp:320-338): the shared field order. -/
def netWriteBase (s : FBaseRootMotionSource) : List WireVal :=
  [.wInt s.priority, .wU16 s.localID, .wByte (accumulateModeToByte s.accumulateMode),
   .wName s.instanceName, .wFloat s.currentTime, .wFloat s.duration,
   .wStatus s.status, .wBool s.bInLocalSpace]

/-- Saving side of the variant `NetSerialize` overrides (the fields each
override serializes after calling the base implementation). -/
def netWriteVariant : RMSVariant → List WireVal
  | .base => []
  | .constantForce cf => [.wVec cf.force, .wObj cf.strengthOverTime]
  | .radialForce rf =>
    [.wVec rf.location, .wObj rf.locationActor, .wFloat rf.radius,
     .wFloat rf.strength, .wBool rf.bIsPush, .wBool rf.bNoZForce,
     .wObj rf.strengthDistanceFalloff, .wObj rf.strengthOverTime,
     .wBool rf.bUseFixedWorldDirection, .wRot rf.fixedWorldDirection]
  | .moveToForce mt =>
    [.wVec mt.startLocation, .wVec mt.targetLocation,
     .wBool mt.bRestrictSpeedToExpected, .wObj mt.pathOffsetCurve]
  | .moveToDynamicForce md =>
    [.wVec md.startLocation, .wVec md.initialTargetLocation, .wVec md.targetLocation,
     .wBool md.bRestrictSpeedToExpected, .wObj md.pathOffsetCurve,
     .wObj md.timeMappingCurve]
  | .jumpForce jf =>
    [.wRot jf.rotation, .wFloat jf.distance, .wFloat jf.height,
     .wBool jf.bDisableTimeout, .wObj jf.pathOffsetCurve, .wObj jf.timeMappingCurve]

/-- Saving side of the full virtual `NetSerialize` of one source. -/
def netWriteSource (s : FBaseRootMotionSource) : List WireVal :=
  netWriteBase s ++ netWriteVariant s.variant

/-- Loading side of `FBaseRootMotionSource::NetSerialize`: reads the shared
fields, in the writing order, into the given instance. -/
def netReadBase (s : FBaseRootMotionSource) (ar : WireArchive) :
    FBaseRootMotionSource × WireArchive :=
  let (priority, ar) := ar.readInt
  let (localID, ar) := ar.readU16
  let (accumulateModeSerialize, ar) := ar.readByte
  let (instanceName, ar) := ar.readName
  let (currentTime, ar) := ar.readFloat
  let (duration, ar) := ar.readFloat
  let (statusFlags, ar) := ar.readStatus
  let (bInLocalSpace, ar) := ar.readBool
  ({ s with priority := priority, localID := localID,
            accumulateMode := byteToAccumulateMode accumulateModeSerialize,
            instanceName := instanceName, currentTime := currentTime,
            duration := duration, status := statusFlags,
            bInLocalSpace := bInLocalSpace }, ar)

/-- Loading side of the variant `NetSerialize` overrides. -/
def netReadVariant (v : RMSVariant) (ar : WireArchive) : RMSVariant × WireArchive :=
  match v with
  | .base => (v, ar)
  | .constantForce _ =>
    let (force, ar) := ar.readVec
    let (strengthOverTime, ar) := ar.readObj
    let cf : ConstantForceFields := { force := force, strengthOverTime := strengthOverTime }
    (.constantForce cf, ar)
  | .radialForce _ =>
    let (location, ar) := ar.readVec
    let (locationActor, ar) := ar.readObj
    let (radius, ar) := ar.readFloat
    let (strength, ar) := ar.readFloat
    let (bIsPush, ar) := ar.readBool
    let (bNoZForce, ar) := ar.readBool
    let (strengthDistanceFalloff, ar) := ar.readObj
    let (strengthOverTime, ar) := ar.readObj
    let (bUseFixedWorldDirection, ar) := ar.readBool
    let (fixedWorldDirection, ar) := ar.readRot
    let rf : RadialForceFields :=
      { location := location, locationActor := locationActor,
        radius := radius, strength := strength, bIsPush := bIsPush,
        bNoZForce := bNoZForce, strengthDistanceFalloff := strengthDistanceFalloff,
        strengthOverTime := strengthOverTime,
        bUseFixedWorldDirection := bUseFixedWorldDirection,
        fixedWorldDirection := fixedWorldDirection }
    (.radialForce rf, ar)
  | .moveToForce _ =>
    let (startLocation, ar) := ar.readVec
    let (targetLocation, ar) := ar.readVec
    let (bRestrictSpeedToExpected, ar) := ar.readBool
    let (pathOffsetCurve, ar) := ar.readObj
    let mt : MoveToForceFields :=
      { startLocation := startLocation, targetLocation := targetLocation,
        bRestrictSpeedToExpected := bRestrictSpeedToExpected,
        pathOffsetCurve := pathOffsetCurve }
    (.moveToForce mt, ar)
  | .moveToDynamicForce _ =>
    let (startLocation, ar) := ar.readVec
    let (initialTargetLocation, ar) := ar.readVec
    let (targetLocation, ar) := ar.readVec
    let (bRestrictSpeedToExpected, ar) := ar.readBool
    let (pathOffsetCurve, ar) := ar.readObj
    let (timeMappingCurve, ar) := ar.readObj
    let md : MoveToDynamicForceFields :=
      { startLocation := startLocation,
        initialTargetLocation := initialTargetLocation,
        targetLocation := targetLocation,
        bRestrictSpeedToExpected := bRestrictSpeedToExpected,
        pathOffsetCurve := pathOffsetCurve, timeMappingCurve := timeMappingCurve }
    (.moveToDynamicForce md, ar)
  | .jumpForce _ =>
    let (rotation, ar) := ar.readRot
    let (distance, ar) := ar.readFloat
    let (height, ar) := ar.readFloat
    let (bDisableTimeout, ar) := ar.readBool
    let (pathOffsetCurve, ar) := ar.readObj
    let (timeMappingCurve, ar) := ar.readObj
    let jf : JumpForceFields :=
      { rotation := rotation, distance := distance, height := height,
        bDisableTimeout := bDisableTimeout, pathOffsetCurve := pathOffsetCurve,
        timeMappingCurve := timeMappingCurve }
    (.jumpForce jf, ar)

/-- Loading side of the full virtual `NetSerialize` of one source: the
dispatch happens on the concrete type of the instance being read into. -/
def netReadSource (s : FBaseRootMotionSource) (ar : WireArchive) :
    FBaseRootMotionSource × WireArchive :=
  let (s, ar) := netReadBase s ar
  let (v, ar) := netReadVariant s.variant ar
  ({ s with variant := v }, ar)

/-- `netSerialize(write)` followed by `netSerialize(read)` into a
default-constructed instance of the same concrete variant. -/
def netRoundTrip (s : FBaseRootMotionSource) : FBaseRootMotionSource :=
  (netReadSource (defaultSource s.scriptStruct) { items := netWriteSource s }).1

/-- `TArray::SetNumZeroed(SourcesNum)` on the shared-pointer array
(BaseRootMotionSource.cpp:2038): existing entries below the new size are
kept, new entries are null. -/
def setNumZeroed (l : List (Option FBaseRootMotionSource)) (n : ℕ) :
    List (Option FBaseRootMotionSource) :=
  l.take n ++ List.replicate (n - l.length) none

/-- The per-source loading loop of `NetSerializeRMSArray`
(BaseRootMotionSource.cpp:2041-2111): for each zeroed slot, read the type
tag; a strict descendant tag deserializes (reusing a same-typed existing
instance, else allocating a default-initialized one); a resolved tag that is
not a strict descendant of `FBaseRootMotionSource`, or an errored reference,
sets the archive error and breaks; a null resolved reference leaves that slot
untouched and continues.  The loop also stops as soon as the archive is in
error. -/
def netSerializeRMSArrayLoadLoop :
    List (Option FBaseRootMotionSource) → WireArchive →
      List (Option FBaseRootMotionSource) × WireArchive
  | [], ar => ([], ar)
  | e :: rest, ar =>
    if ar.err then (e :: rest, ar)
    else
      let (ref, ar) := ar.readStructRef
      match ref with
      | .rms t =>
        let target :=
          match e with
          | some s0 => if s0.scriptStruct = t then s0 else defaultSource t
          | none => defaultSource t
        let (s, ar) := netReadSource target ar
        let r := netSerializeRMSArrayLoadLoop rest ar
        (some s :: r.1, r.2)
      | .nullRef =>
        let r := netSerializeRMSArrayLoadLoop rest ar
        (e :: r.1, r.2)
      | .baseStruct => (e :: rest, ar.setError)
      | .foreign => (e :: rest, ar.setError)
      | .errorRef => (e :: rest, ar.setError)

/-- Loading side of `FBaseRootMotionSourceGroup::NetSerializeRMSArray`
(BaseRootMotionSource.cpp:2026-2113): read the count byte, size the array,
run the loading loop.  (The max-count clamp only applies on the saving
side.) -/
def netSerializeRMSArrayLoad (existing : List (Option FBaseRootMotionSource))
    (ar : WireArchive) : List (Option FBaseRootMotionSource) × WireArchive :=
  let (sourcesNum, ar) := ar.readByte
  netSerializeRMSArrayLoadLoop (setNumZeroed existing sourcesNum) ar

namespace FBaseRootMotionSourceGroup

/-- Loading side of `FBaseRootMotionSourceGroup::NetSerialize`
(BaseRootMotionSource.cpp:2115-2152): header fields, both source arrays,
then — if the archive is in error — removal of every invalid entry from both
lists, failure flagged, `false` returned.  Result:
(group, archive, `bOutSuccess`, return value). -/
def netSerializeLoad (g : FBaseRootMotionSourceGroup) (ar : WireArchive) :
    FBaseRootMotionSourceGroup × WireArchive × Bool × Bool :=
  let (bHasAdditiveSources, ar) := ar.readBool
  let (bHasOverrideSources, ar) := ar.readBool
  let (bHasOverrideSourcesWithIgnoreZAccumulate, ar) := ar.readBool
  let (lastPreAdditiveVelocity, ar) := ar.readVec
  let (bIsAdditiveVelocityApplied, ar) := ar.readBool
  let (lastAccumulatedSettings, ar) := ar.readSettings
  let (rootMotionSources, ar) := netSerializeRMSArrayLoad g.rootMotionSources ar
  let (pendingAddRootMotionSources, ar) :=
    netSerializeRMSArrayLoad g.pendingAddRootMotionSources ar
  let g := { g with
    bHasAdditiveSources := bHasAdditiveSources,
    bHasOverrideSources := bHasOverrideSources,
    bHasOverrideSourcesWithIgnoreZAccumulate := bHasOverrideSourcesWithIgnoreZAccumulate,
    lastPreAdditiveVelocity := lastPreAdditiveVelocity,
    bIsAdditiveVelocityApplied := bIsAdditiveVelocityApplied,
    lastAccumulatedSettings := lastAccumulatedSettings,
    rootMotionSources := rootMotionSources,
    pendingAddRootMotionSources := pendingAddRootMotionSources }
  if ar.err then
    ({ g with rootMotionSources := g.rootMotionSources.filter (·.isSome),
              pendingAddRootMotionSources :=
                g.pendingAddRootMotionSources.filter (·.isSome) },
     ar, false, false)
  else
    (g, ar, true, true)

end FBaseRootMotionSourceGroup

/-! ## Root-motion replay buffer (`BaseCharacter.cpp`) -/

/-- The slice of `FBaseSimulatedRootMotionReplicatedMove` read by the
replay-buffer lookup: receipt timestamp plus the replicated root-motion
montage reference and track position.  (The struct is declared in a header
outside the provided sources; the spec (§3, ReplicatedMove snapshot) lists
exactly these attributes.) -/
structure FBaseSimulatedRootMotionReplicatedMove where
  time : ℚ
  animMontage : Option ℕ
  position : ℚ
deriving DecidableEq, Repr

/-- Montage-asset queries of the client's current montage (engine-side
`UAnimMontage` / `FAnimMontageInstance` collaborators; `INDEX_NONE = -1`). -/
structure MontageQueries where
  /-- `UAnimMontage::GetSectionIndexFromPosition`. -/
  getSectionIndexFromPosition : ℚ → ℤ
  /-- `UAnimMontage::GetSectionLength`. -/
  getSectionLength : ℤ → ℚ
  /-- `FAnimMontageInstance::GetNextSectionID`. -/
  getNextSectionID : ℤ → ℤ

/-- The slice of `FAnimMontageInstance` the lookup reads. -/
structure FAnimMontageInstanceState where
  /-- `Montage` (object identity, `none` = null). -/
  montage : Option ℕ
  /-- `GetPosition()`. -/
  position : ℚ
  /-- `GetPlayRate()`. -/
  playRate : ℚ

/-- `ABaseCharacter::CanUseRootMotionRepMove` (BaseCharacter.cpp:1385-1418).
`worldTime` is the world clock, so `GetWorld()->TimeSince(t) = worldTime - t`. -/
def canUseRootMotionRepMove (worldTime : ℚ) (mq : MontageQueries)
    (clientMontageInstance : FAnimMontageInstanceState)
    (rootMotionRepMove : FBaseSimulatedRootMotionReplicatedMove) : Bool :=
  if worldTime - rootMotionRepMove.time ≤ 1 / 2 then
    if rootMotionRepMove.animMontage.isSome ∧
        rootMotionRepMove.animMontage = clientMontageInstance.montage then
      let serverPosition := rootMotionRepMove.position
      let clientPosition := clientMontageInstance.position
      let deltaPosition := clientPosition - serverPosition
      let currentSectionIndex := mq.getSectionIndexFromPosition clientPosition
      if currentSectionIndex ≠ -1 then
        let nextSectionIndex := mq.getNextSectionID currentSectionIndex
        let bSameSections :=
          mq.getSectionIndexFromPosition serverPosition = currentSectionIndex
        let bHasLooped := nextSectionIndex = currentSectionIndex ∧
          |deltaPosition| > mq.getSectionLength currentSectionIndex / 2
        let bServerAheadOfClient := deltaPosition * clientMontageInstance.playRate < 0
        decide bSameSections && !(decide bHasLooped) && !(decide bServerAheadOfClient)
      else false
    else false
  else false

/-- The downward scan of `ABaseCharacter::FindRootMotionRepMove`
(BaseCharacter.cpp:1367-1383): start with the most recent move (largest
index) and go back in time; `-1` models `INDEX_NONE`.  In this recursive
form the tail holds the higher indices, so a usable move in the tail takes
precedence over the head. -/
def findFromTop (p : α → Bool) : List α → ℤ
  | [] => -1
  | a :: rest =>
    let r := findFromTop p rest
    if r ≥ 0 then r + 1
    else if p a then 0
    else -1

/-- `ABaseCharacter::FindRootMotionRepMove` (BaseCharacter.cpp:1367-1383). -/
def findRootMotionRepMove (worldTime : ℚ) (mq : MontageQueries)
    (clientMontageInstance : FAnimMontageInstanceState)
    (rootMotionRepMoves : List FBaseSimulatedRootMotionReplicatedMove) : ℤ :=
  findFromTop (canUseRootMotionRepMove worldTime mq clientMontageInstance)
    rootMotionRepMoves

/-- A trivial engine oracle (used to instantiate theorems at concrete
inputs). -/
def trivialEngineEnv : EngineEnv :=
  { curveFloatValue := fun _ _ => 0
    curveFloatTimeRange := fun _ => (0, 1)
    curveVectorValue := fun _ _ => FVector.zero
    curveVectorTimeRange := fun _ => (0, 1)
    dist := fun _ _ => 0
    safeNormal := fun _ => FVector.zero
    size := fun _ => 0
    normalize := fun _ => FVector.zero
    clampedToMaxSize2D := fun v _ => v
    rotatorVector := fun _ => FVector.zero
    rotateVector := fun _ v => v
    vectorToRotator := fun _ => FRotator.zero
    actorLocation := fun _ => FVector.zero }

/-- Concrete montage queries used to instantiate theorems. -/
def sampleMontageQueries : MontageQueries :=
  { getSectionIndexFromPosition := fun _ => 0
    getSectionLength := fun _ => 10
    getNextSectionID := fun i => i + 1 }

/-- Concrete client montage state used to instantiate theorems. -/
def sampleClientMontage : FAnimMontageInstanceState :=
  { montage := some 7, position := 2, playRate := 1 }

/-- Concrete replay buffer used to instantiate theorems: the older entry
(index 0) is stale, the most recent entry (index 1) is usable. -/
def sampleRepMoves : List FBaseSimulatedRootMotionReplicatedMove :=
  [{ time := 9, animMontage := some 7, position := 1 },
   { time := 10, animMontage := some 7, position := 1 }]

/-- Concrete additive source marked for removal (theorem instantiation). -/
def sampleAdditiveSource : FBaseRootMotionSource :=
  { accumulateMode := .Additive, status := { markedForRemoval := true },
    rootMotionTranslation := ⟨10, 0, 0⟩, variant := .constantForce {} }

/-- Concrete group holding `sampleAdditiveSource` with additive velocity
applied (theorem instantiation). -/
def sampleAdditiveGroup : FBaseRootMotionSourceGroup :=
  { rootMotionSources := [some sampleAdditiveSource],
    bIsAdditiveVelocityApplied := true,
    lastPreAdditiveVelocity := ⟨1, 2, 3⟩ }

/-- Concrete Override-mode sources of priorities 5, 1, 9 (theorem
instantiation). -/
def sampleOverride5 : FBaseRootMotionSource :=
  { priority := 5, accumulateMode := .Override, rootMotionTranslation := ⟨50, 0, 0⟩,
    variant := .constantForce {} }

def sampleOverride1 : FBaseRootMotionSource :=
  { priority := 1, accumulateMode := .Override, rootMotionTranslation := ⟨10, 0, 0⟩,
    variant := .constantForce {} }

def sampleOverride9 : FBaseRootMotionSource :=
  { priority := 9, accumulateMode := .Override, rootMotionTranslation := ⟨90, 0, 0⟩,
    variant := .constantForce {} }

/-- A group holding the three sample override sources as pending. -/
def sampleOverrideGroup : FBaseRootMotionSourceGroup :=
  { pendingAddRootMotionSources :=
      [some sampleOverride5, some sampleOverride1, some sampleOverride9] }

/-- The prepared form of `sampleOverride9` under the trivial engine. -/
def samplePrepared9 : FBaseRootMotionSource :=
  (prepareStep trivialEngineEnv 1 {} false (some sampleOverride9)).getD {}

/-- The base-plus-variant field set that the virtual `NetSerialize` of a
source actually writes to (and reads from) the wire: everything in `s`
except `StartTime`, `PreviousTime`, the `Settings` flags, the simulated
catch-up/smoothing booleans and the (non-replicated) root-motion params,
which keep the destination instance's values. -/
def overwriteSerializedFields (d s : FBaseRootMotionSource) : FBaseRootMotionSource :=
  { d with priority := s.priority, localID := s.localID,
           accumulateMode := s.accumulateMode, instanceName := s.instanceName,
           currentTime := s.currentTime, duration := s.duration,
           status := s.status, bInLocalSpace := s.bInLocalSpace,
           variant := s.variant }

/-- A constant-force source with a non-default start time (theorem
instantiation). -/
def sampleRoundTripSource : FBaseRootMotionSource :=
  { defaultSource RMSTag.constantForce with startTime := 1 }

/-- A radial-force source with modified fields (theorem instantiation). -/
def sampleRadialRoundTrip : FBaseRootMotionSource :=
  { priority := 3, currentTime := 2, variant := .radialForce {} }

/-- A group wire message: well-formed header, a source-count byte `n`, some
number of well-formed source records, then a record whose type tag `r` is
not a strict descendant of the base type, then arbitrary trailing data. -/
def badTagStream (b1 b2 b3 b4 : Bool) (vv : FVector)
    (st : FBaseRootMotionSourceSettings) (n : ℕ)
    (sources : List FBaseRootMotionSource) (r : WireStructRef)
    (rest : List WireVal) : WireArchive :=
  { items := WireVal.wBool b1 :: WireVal.wBool b2 :: WireVal.wBool b3 ::
      WireVal.wVec vv :: WireVal.wBool b4 :: WireVal.wSettings st ::
      WireVal.wByte n :: ((sources.map
        (fun s => WireVal.wStruct (.rms s.scriptStruct) :: netWriteSource s)).flatten ++
        WireVal.wStruct r :: rest),
    err := false }

/-! # Theorems -/

/-! ## C2: partial-end-tick truncation of the simulation time -/

/-- C2: for a time-bounded source without the `DisablePartialEndTick`
settings flag, when the tick's simulation time would carry the source's
elapsed time to or past its duration, the simulation time passed to the
source's prepare is truncated to `duration - currentTime` plus the
`UE_KINDA_SMALL_NUMBER` epsilon and floored at zero, the adjusted time is
never negative (for any source whatsoever), and the resulting elapsed time
reaches the duration so the timeout trips. -/
theorem adjustedSimulationTime_partial_end_tick :
    (∀ (deltaTime : ℚ) (ch : ABaseCharacterState) (src : FBaseRootMotionSource),
      0 ≤ adjustedSimulationTime deltaTime ch src) ∧
    (∀ (deltaTime : ℚ) (ch : ABaseCharacterState) (src : FBaseRootMotionSource),
      src.isTimeOutEnabled = true →
      src.settings.hasFlag .DisablePartialEndTick = false →
      src.bNeedsSimulatedCatchup = false →
      src.isStartTimeValid = false ∨ src.getTime ≠ 0 →
      src.getDuration ≤ src.getTime + deltaTime →
      adjustedSimulationTime deltaTime ch src =
        max (src.getDuration - src.getTime + UE_KINDA_SMALL_NUMBER) 0 ∧
      src.getDuration ≤ src.getTime + adjustedSimulationTime deltaTime ch src) := by
  have floorNonneg : ∀ (deltaTime : ℚ) (ch : ABaseCharacterState)
      (src : FBaseRootMotionSource), 0 ≤ adjustedSimulationTime deltaTime ch src := by
    intro dt ch src
    unfold adjustedSimulationTime
    simp only [FMath.maxQ]
    exact le_max_right _ 0
  refine ⟨floorNonneg, ?_⟩
  intro dt ch src hTimeout hNoDisable hNoCatchup hNoStart hPast
  have hEq : adjustedSimulationTime dt ch src =
      max (src.getDuration - src.getTime + UE_KINDA_SMALL_NUMBER) 0 := by
    rcases hNoStart with h | h <;>
      simp [adjustedSimulationTime, hNoCatchup, h, hTimeout, hNoDisable, hPast,
        FMath.maxQ, max_comm, ge_iff_le]
  refine ⟨hEq, ?_⟩
  rw [hEq]
  rcases le_total 0 (src.getDuration - src.getTime + UE_KINDA_SMALL_NUMBER) with h | h
  · rw [max_eq_left h]
    have : (0 : ℚ) < UE_KINDA_SMALL_NUMBER := by norm_num [UE_KINDA_SMALL_NUMBER]
    linarith
  · rw [max_eq_right h]
    have : (0 : ℚ) < UE_KINDA_SMALL_NUMBER := by norm_num [UE_KINDA_SMALL_NUMBER]
    linarith

/-- Witness for C2 at a concrete input: a radial source with duration 2 and
elapsed time 1, ticked by 3. -/
theorem adjustedSimulationTime_partial_end_tick_witness :
    (({ duration := 2, currentTime := 1, variant := .radialForce {} } : FBaseRootMotionSource).isTimeOutEnabled = true ∧
     ({ duration := 2, currentTime := 1, variant := .radialForce {} } : FBaseRootMotionSource).settings.hasFlag .DisablePartialEndTick = false) ∧
    adjustedSimulationTime 3 {} ({ duration := 2, currentTime := 1, variant := .radialForce {} } : FBaseRootMotionSource) =
      max ((2 : ℚ) - 1 + UE_KINDA_SMALL_NUMBER) 0 := by
  refine ⟨⟨by decide, by decide⟩, ?_⟩
  have h := (adjustedSimulationTime_partial_end_tick.2 3 {}
    ({ duration := 2, currentTime := 1, variant := .radialForce {} } : FBaseRootMotionSource)
    (by decide) (by decide) (by decide) (Or.inr (by norm_num [FBaseRootMotionSource.getTime]))
    (by norm_num [FBaseRootMotionSource.getTime, FBaseRootMotionSource.getDuration])).1
  simpa [FBaseRootMotionSource.getDuration, FBaseRootMotionSource.getTime] using h

/-! ## C5: `UpdateStateFrom` state transfer -/

/-- C5 counterexample: two sources of the identical concrete variant type
(both constant-force) where the transfer does NOT copy the other's status
flags — the other source carries `Finished = true` (its own duration 1 is
already exceeded at time 2), self's duration is 10, and self is not marked
for removal; after `updateStateFrom` the Finished flag is false, because
`SetTime` re-runs `CheckTimeOut` against self's own duration. -/
theorem updateStateFrom_finished_not_copied :
    (FBaseRootMotionSource.updateStateFrom
        { duration := 10, variant := .constantForce {} }
        { duration := 1, currentTime := 2, status := { finished := true },
          variant := .constantForce {} } false).map
      (fun t => t.status.finished) = some false ∧
    ({ duration := 1, currentTime := 2, status := { finished := true },
       variant := .constantForce {} } : FBaseRootMotionSource).status.finished = true ∧
    ({ duration := 10, variant := .constantForce {} } :
       FBaseRootMotionSource).status.markedForRemoval = false := by
  decide

/-- C5 (amended): for identical concrete variant types, `updateStateFrom`
copies the other's elapsed time and status flags onto self — except that
self's MarkedForRemoval flag, if already set, remains set, and except that
the Finished flag is immediately recomputed from the copied time against
self's own (untransferred) duration whenever self's timeout is enabled; for
differing concrete variant types it copies nothing and returns false
(`none`). -/
theorem updateStateFrom_characterization :
    ∀ (s other : FBaseRootMotionSource) (mark : Bool),
      (s.scriptStruct ≠ other.scriptStruct → s.updateStateFrom other mark = none) ∧
      (s.scriptStruct = other.scriptStruct →
        (s.updateStateFrom other mark).map (fun t => t.currentTime) =
          some other.getTime ∧
        (s.updateStateFrom other mark).map (fun t => t.status.prepared) =
          some other.status.prepared ∧
        (s.updateStateFrom other mark).map (fun t => t.status.markedForRemoval) =
          some (other.status.markedForRemoval || s.status.markedForRemoval) ∧
        (s.updateStateFrom other mark).map (fun t => t.status.finished) =
          some (if s.isTimeOutEnabled then decide (s.duration ≤ other.getTime)
            else other.status.finished) ∧
        (s.updateStateFrom other mark).map (fun t => t.duration) = some s.duration) := by
  intro s other mark
  constructor
  · intro h
    simp [FBaseRootMotionSource.updateStateFrom, h]
  · intro h
    cases hmfr : s.status.markedForRemoval <;>
      cases hv : s.variant <;> cases hw : other.variant <;>
        simp_all [FBaseRootMotionSource.updateStateFrom,
          FBaseRootMotionSource.setTime, FBaseRootMotionSource.checkTimeOut,
          FBaseRootMotionSource.isTimeOutEnabled,
          FBaseRootMotionSourceStatus.hasFlag, FBaseRootMotionSourceStatus.setFlag,
          FBaseRootMotionSourceStatus.unSetFlag, FBaseRootMotionSource.scriptStruct,
          RMSVariant.tag, FBaseRootMotionSource.getTime, apply_ite, ge_iff_le] <;>
      · intro h'
        split
        · next hcond => simp [hcond]
        · next hcond => simp [hcond]

/-- Witness for C5 at concrete inputs: a same-type transfer succeeds and a
cross-type transfer fails. -/
theorem updateStateFrom_characterization_witness :
    (({ variant := .jumpForce {} } : FBaseRootMotionSource).scriptStruct =
      ({ currentTime := 1, variant := .jumpForce {} } : FBaseRootMotionSource).scriptStruct ∧
     (FBaseRootMotionSource.updateStateFrom { variant := .jumpForce {} }
        { currentTime := 1, variant := .jumpForce {} } true).map
       (fun t => t.currentTime) = some 1) ∧
    (({ variant := .jumpForce {} } : FBaseRootMotionSource).scriptStruct ≠
      ({ variant := .radialForce {} } : FBaseRootMotionSource).scriptStruct ∧
     FBaseRootMotionSource.updateStateFrom { variant := .jumpForce {} }
       { variant := .radialForce {} } true = none) := by
  refine ⟨⟨by decide, ?_⟩, ⟨by decide, ?_⟩⟩
  · have h := ((updateStateFrom_characterization { variant := .jumpForce {} }
      { currentTime := 1, variant := .jumpForce {} } true).2 (by decide)).1
    simpa [FBaseRootMotionSource.getTime] using h
  · exact (updateStateFrom_characterization { variant := .jumpForce {} }
      { variant := .radialForce {} } true).1 (by decide)

/-! ## C7: timeout transition under repeated preparation -/

/-- `SetTime` sets the clock to the requested value, leaves the duration and
the concrete variant untouched, and — when the timeout is enabled —
recomputes the `Finished` flag as `currentTime >= duration`
(BaseRootMotionSource.cpp:284-307). -/
theorem setTime_fields (t : FBaseRootMotionSource) (q : ℚ) :
    (t.setTime q).currentTime = q ∧
    (t.setTime q).duration = t.duration ∧
    (t.setTime q).variant = t.variant ∧
    (t.isTimeOutEnabled = true →
      (t.setTime q).status.finished = decide (t.duration ≤ q)) := by
  unfold FBaseRootMotionSource.setTime FBaseRootMotionSource.checkTimeOut
  split
  · next hen =>
    split
    · next hc =>
      refine ⟨rfl, rfl, rfl, fun _ => ?_⟩
      simp only [ge_iff_le] at hc
      simp [FBaseRootMotionSourceStatus.setFlag, hc]
    · next hc =>
      refine ⟨rfl, rfl, rfl, fun _ => ?_⟩
      simp only [ge_iff_le, not_le] at hc
      simp [FBaseRootMotionSourceStatus.unSetFlag, hc, not_le.mpr hc]
  · next hen =>
    refine ⟨rfl, rfl, rfl, fun ht => absurd ht hen⟩

/-- Every concrete (non-base) variant's `PrepareRootMotion` override ends by
writing the new translation and calling `SetTime(GetTime() + SimulationTime)`
(BaseRootMotionSource.cpp:405-445, 545-617, 735-806, 933-1014,
1165-1265). -/
theorem prepareRootMotionSource_nonbase (env : EngineEnv) (step tick : ℚ)
    (ch : ABaseCharacterState) (t : FBaseRootMotionSource)
    (h : ¬ t.variant = RMSVariant.base) :
    ∃ v, prepareRootMotionSource env step tick ch t =
      FBaseRootMotionSource.setTime { t with rootMotionTranslation := v }
        (t.getTime + step) := by
  cases hv : t.variant
  case base => exact absurd hv h
  all_goals
    simp only [prepareRootMotionSource, hv, prepareConstantForce,
      prepareRadialForce, prepareMoveToForce, prepareMoveToDynamicForce,
      prepareJumpForce]
  all_goals exact ⟨_, rfl⟩

/-- C7: every time-bounded source — any concrete variant with its timeout
enabled and duration `D > 0`, starting at elapsed time 0 — repeatedly
prepared with a fixed positive simulation-time step carries the Finished
status flag after `n` steps exactly when the accumulated time `n * step` has
reached `D`; in particular the flag first appears on the step that reaches
the duration and is absent on the immediately preceding step. -/
theorem prepare_timeout_first_crossing :
    ∀ (env : EngineEnv) (movementTickTime : ℚ) (ch : ABaseCharacterState)
      (s : FBaseRootMotionSource) (step : ℚ),
      ¬ s.variant = RMSVariant.base →
      s.isTimeOutEnabled = true →
      s.currentTime = 0 →
      s.status.finished = false →
      0 < s.duration → 0 < step →
      ∀ n : ℕ,
        ((fun t => prepareRootMotionSource env step movementTickTime ch t)^[n] s).status.finished
          = decide (s.duration ≤ n * step) := by
  intro env tick ch s step hbase htimeout h0 hfin hD hstep
  have key : ∀ n : ℕ,
      ((fun t => prepareRootMotionSource env step tick ch t)^[n] s).currentTime = n * step ∧
      ((fun t => prepareRootMotionSource env step tick ch t)^[n] s).duration = s.duration ∧
      ((fun t => prepareRootMotionSource env step tick ch t)^[n] s).variant = s.variant ∧
      ((fun t => prepareRootMotionSource env step tick ch t)^[n] s).status.finished
        = decide (s.duration ≤ n * step) := by
    intro n
    induction n with
    | zero =>
      refine ⟨by simpa using h0, rfl, rfl, ?_⟩
      simp [hfin, hD]
    | succ n ih =>
      obtain ⟨ht, hd, hvr, _⟩ := ih
      rw [Function.iterate_succ_apply']
      revert ht hd hvr
      generalize (fun t => prepareRootMotionSource env step tick ch t)^[n] s = t
      intro ht hd hvr
      have hvb : ¬ t.variant = RMSVariant.base := by rw [hvr]; exact hbase
      have hten : t.isTimeOutEnabled = true := by
        unfold FBaseRootMotionSource.isTimeOutEnabled at htimeout ⊢
        rw [hvr, hd]
        exact htimeout
      obtain ⟨v, hveq⟩ := prepareRootMotionSource_nonbase env step tick ch t hvb
      have hfields := setTime_fields
        ({ t with rootMotionTranslation := v } : FBaseRootMotionSource) (t.getTime + step)
      simp only [hveq]
      refine ⟨?_, ?_, ?_, ?_⟩
      · rw [hfields.1]
        show t.currentTime + step = _
        rw [ht]
        push_cast
        ring
      · rw [hfields.2.1]; exact hd
      · rw [hfields.2.2.1]; exact hvr
      · rw [hfields.2.2.2 hten]
        show decide (t.duration ≤ t.currentTime + step) = _
        rw [hd, ht]
        have harith : ((n : ℚ) + 1) * step = (n : ℚ) * step + step := by ring
        rw [Nat.cast_succ, harith]
  intro n
  exact (key n).2.2.2

/-- Witness for C7 at a concrete input, on a jump-force source: duration 2,
step 1 — the flag is absent after 1 preparation and present after 2. -/
theorem prepare_timeout_first_crossing_witness :
    (¬ ({ duration := 2, variant := .jumpForce {} } : FBaseRootMotionSource).variant = RMSVariant.base ∧
     ({ duration := 2, variant := .jumpForce {} } : FBaseRootMotionSource).isTimeOutEnabled = true ∧
     (0 : ℚ) < 2 ∧ (0 : ℚ) < 1) ∧
    ((fun t => prepareRootMotionSource trivialEngineEnv 1 1 {} t)^[1]
      ({ duration := 2, variant := .jumpForce {} } : FBaseRootMotionSource)).status.finished = false ∧
    ((fun t => prepareRootMotionSource trivialEngineEnv 1 1 {} t)^[2]
      ({ duration := 2, variant := .jumpForce {} } : FBaseRootMotionSource)).status.finished = true := by
  refine ⟨⟨by decide, by decide, by norm_num, by norm_num⟩, ?_, ?_⟩
  · have h := prepare_timeout_first_crossing trivialEngineEnv 1 {}
      { duration := 2, variant := .jumpForce {} } 1 (by decide) (by decide) rfl rfl
      (by norm_num) (by norm_num) 1
    rw [h]
    norm_num
  · have h := prepare_timeout_first_crossing trivialEngineEnv 1 {}
      { duration := 2, variant := .jumpForce {} } 1 (by decide) (by decide) rfl rfl
      (by norm_num) (by norm_num) 2
    rw [h]
    norm_num

/-! ## C6: radial-force strength attenuation -/

/-- The `FMath::Clamp(x, 0, 1)` range, shared by the C6 bounds. -/
theorem clamp_zero_one_mem (x : ℚ) :
    0 ≤ FMath.clamp x 0 1 ∧ FMath.clamp x 0 1 ≤ 1 := by
  unfold FMath.clamp
  split_ifs <;> constructor <;> linarith

/-- Multiplying by a `[0,1]`-clamped factor never increases a magnitude. -/
theorem mul_clamp_zero_one_le (s x : ℚ) :
    |s * FMath.clamp x 0 1| ≤ |s| ∧ (0 ≤ s → s * FMath.clamp x 0 1 ≤ s) := by
  have hc := clamp_zero_one_mem x
  constructor
  · rw [abs_mul, abs_of_nonneg hc.1]
    calc |s| * FMath.clamp x 0 1 ≤ |s| * 1 :=
          mul_le_mul_of_nonneg_left hc.2 (abs_nonneg s)
      _ = |s| := mul_one _
  · intro hs
    calc s * FMath.clamp x 0 1 ≤ s * 1 := mul_le_mul_of_nonneg_left hc.2 hs
      _ = s := mul_one _

/-- `SetTime` (and the `CheckTimeOut` it runs) never touches the stored
root-motion params. -/
theorem setTime_rootMotionTranslation (s : FBaseRootMotionSource) (t : ℚ) :
    (s.setTime t).rootMotionTranslation = s.rootMotionTranslation := by
  unfold FBaseRootMotionSource.setTime FBaseRootMotionSource.checkTimeOut
  split_ifs <;> rfl

/-- C6: inside the radius, the strength a radial-force source applies equals
`Strength` multiplied by `1 - (1 - distanceFactor) - (1 - timeFactor)`
clamped to `[0, 1]`, where a factor defaults to 1 when its curve is absent;
consequently the curves can never increase the magnitude of the configured
strength (and never raise a non-negative strength).  The final conjunct ties
the scalar to the prepared contribution: with the actor inside the radius,
no Z-zeroing and no catch-up scaling, the prepared translation is the
direction vector scaled by exactly this strength. -/
theorem radialForce_strength_formula :
    (∀ (env : EngineEnv) (rf : RadialForceFields) (duration time distance : ℚ),
      radialForceCurrentStrength env rf duration time distance =
        rf.strength * FMath.clamp
          (1 - (1 - rf.strengthDistanceFalloff.elim 1
              (fun c => env.curveFloatValue c (FMath.clamp (distance / rf.radius) 0 1)))
            - (1 - rf.strengthOverTime.elim 1
              (fun c => env.curveFloatValue c
                (if duration > 0 then FMath.clamp (time / duration) 0 1 else time))))
          0 1) ∧
    (∀ (env : EngineEnv) (rf : RadialForceFields) (duration time distance : ℚ),
      |radialForceCurrentStrength env rf duration time distance| ≤ |rf.strength|) ∧
    (∀ (env : EngineEnv) (rf : RadialForceFields) (duration time distance : ℚ),
      0 ≤ rf.strength →
        radialForceCurrentStrength env rf duration time distance ≤ rf.strength) ∧
    (∀ (env : EngineEnv) (simulationTime movementTickTime : ℚ)
       (ch : ABaseCharacterState) (s : FBaseRootMotionSource) (rf : RadialForceFields),
      env.dist (rf.locationActor.elim rf.location env.actorLocation) ch.actorLocation
          < rf.radius →
      rf.bNoZForce = false →
      simulationTime = movementTickTime →
      (prepareRadialForce env simulationTime movementTickTime ch s rf).rootMotionTranslation =
        (if rf.bUseFixedWorldDirection then env.rotatorVector rf.fixedWorldDirection
         else if rf.bIsPush then
           (env.safeNormal ((rf.locationActor.elim rf.location env.actorLocation)
              - ch.actorLocation)).scale (-1)
         else env.safeNormal ((rf.locationActor.elim rf.location env.actorLocation)
              - ch.actorLocation)).scale
          (radialForceCurrentStrength env rf s.duration s.getTime
            (env.dist (rf.locationActor.elim rf.location env.actorLocation)
              ch.actorLocation))) := by
  have hformula : ∀ (env : EngineEnv) (rf : RadialForceFields) (duration time distance : ℚ),
      radialForceCurrentStrength env rf duration time distance =
        rf.strength * FMath.clamp
          (1 - (1 - rf.strengthDistanceFalloff.elim 1
              (fun c => env.curveFloatValue c (FMath.clamp (distance / rf.radius) 0 1)))
            - (1 - rf.strengthOverTime.elim 1
              (fun c => env.curveFloatValue c
                (if duration > 0 then FMath.clamp (time / duration) 0 1 else time))))
          0 1 := by
    intro env rf duration time distance
    unfold radialForceCurrentStrength
    cases rf.strengthDistanceFalloff <;> cases rf.strengthOverTime <;>
      · simp only [Option.elim]
        try ring_nf
  refine ⟨hformula, ?_, ?_, ?_⟩
  · intro env rf duration time distance
    rw [hformula]
    exact (mul_clamp_zero_one_le _ _).1
  · intro env rf duration time distance hpos
    rw [hformula]
    exact (mul_clamp_zero_one_le _ _).2 hpos
  · intro env simulationTime movementTickTime ch s rf hin hnoZ heq
    subst heq
    unfold prepareRadialForce
    rw [setTime_rootMotionTranslation]
    cases hact : rf.locationActor <;>
      simp only [hact, Option.elim] at hin ⊢ <;>
      · rw [if_neg (by simp)]
        rw [if_pos hin]
        simp only [hnoZ, Bool.false_eq_true, if_false]
        cases hfix : rf.bUseFixedWorldDirection <;>
          cases hpush : rf.bIsPush <;>
            simp only [Bool.false_eq_true, if_false, if_true] <;>
            first
              | rfl
              | (simp only [FVector.scale, FVector.mk.injEq]
                 exact ⟨by ring, by ring, by ring⟩)

/-- Witness for C6 at a concrete input: strength 5, trivial curves/oracles,
actor at distance 0 inside radius 1; the attenuated strength is still
bounded by 5 and the prepared translation is the (zero) direction scaled by
the attenuated strength. -/
theorem radialForce_strength_formula_witness :
    ((0 : ℚ) ≤ 5 ∧
     radialForceCurrentStrength trivialEngineEnv { strength := 5 } (-1) 0 0 ≤ 5) ∧
    (trivialEngineEnv.dist
        ((({ strength := 5 } : RadialForceFields).locationActor).elim
          ({ strength := 5 } : RadialForceFields).location trivialEngineEnv.actorLocation)
        ({} : ABaseCharacterState).actorLocation <
        ({ strength := 5 } : RadialForceFields).radius ∧
     ({ strength := 5 } : RadialForceFields).bNoZForce = false) ∧
    (prepareRadialForce trivialEngineEnv 1 1 {} {} { strength := 5 }).rootMotionTranslation =
      FVector.zero := by
  refine ⟨⟨by norm_num, ?_⟩, ⟨by decide, by decide⟩, ?_⟩
  · exact radialForce_strength_formula.2.2.1 trivialEngineEnv { strength := 5 } (-1) 0 0
      (by norm_num)
  · have h := radialForce_strength_formula.2.2.2 trivialEngineEnv 1 1 {} {}
      { strength := 5 } (by decide) (by decide) rfl
    rw [h]
    simp [trivialEngineEnv, FVector.scale, FVector.zero, Option.elim]

/-! ## C9: replay-buffer lookup -/

/-- `findFromTop` yields `-1` or an index into the list. -/
theorem findFromTop_range (p : α → Bool) (l : List α) :
    findFromTop p l = -1 ∨ (0 ≤ findFromTop p l ∧ findFromTop p l < l.length) := by
  induction l with
  | nil => left; rfl
  | cons a rest ih =>
    simp only [findFromTop, List.length_cons]
    rcases ih with h | ⟨h0, hlt⟩
    · rw [h, if_neg (by norm_num)]
      by_cases hpa : p a
      · rw [if_pos hpa]
        right
        refine ⟨le_refl 0, ?_⟩
        push_cast
        omega
      · rw [if_neg hpa]
        left
        rfl
    · rw [if_pos h0]
      right
      push_cast
      omega

/-- `findFromTop` yields `-1` exactly when no element satisfies the
predicate. -/
theorem findFromTop_eq_neg_one_iff (p : α → Bool) (l : List α) :
    findFromTop p l = -1 ↔ ∀ a ∈ l, p a = false := by
  induction l with
  | nil => simp [findFromTop]
  | cons a rest ih =>
    simp only [findFromTop]
    constructor
    · intro h
      rcases findFromTop_range p rest with hr | ⟨h0, _⟩
      · rw [hr, if_neg (by norm_num)] at h
        by_cases hpa : p a
        · rw [if_pos hpa] at h
          exact absurd h (by norm_num)
        · intro x hx
          rcases List.mem_cons.1 hx with rfl | hx'
          · simpa using hpa
          · exact (ih.1 hr) x hx'
      · rw [if_pos h0] at h
        omega
    · intro hall
      have hpa : p a = false := hall a (List.mem_cons_self a rest)
      have hrest : findFromTop p rest = -1 :=
        ih.2 fun x hx => hall x (List.mem_cons_of_mem a hx)
      rw [hrest, if_neg (by norm_num), if_neg (by simp [hpa])]

/-- When `findFromTop` yields a (necessarily in-range) index `j`, the `j`-th
element satisfies the predicate and every element above `j` (scanned
earlier) does not. -/
theorem findFromTop_found (p : α → Bool) :
    ∀ (l : List α) (j : ℕ), findFromTop p l = (j : ℤ) →
      ∃ hj : j < l.length, p (l.get ⟨j, hj⟩) = true ∧
        ∀ k (hk : k < l.length), j < k → p (l.get ⟨k, hk⟩) = false := by
  intro l
  induction l with
  | nil =>
    intro j h
    simp only [findFromTop] at h
    omega
  | cons a rest ih =>
    intro j h
    simp only [findFromTop] at h
    rcases findFromTop_range p rest with hr | ⟨hr0, hrlt⟩
    · rw [hr, if_neg (by norm_num)] at h
      by_cases hpa : p a
      · rw [if_pos hpa] at h
        have hj0 : j = 0 := by omega
        subst hj0
        refine ⟨by simp, by simpa using hpa, ?_⟩
        intro k hk hkpos
        obtain ⟨m, rfl⟩ : ∃ m, k = m + 1 := ⟨k - 1, by omega⟩
        have hm : m < rest.length := by simpa using hk
        have hall := (findFromTop_eq_neg_one_iff p rest).1 hr
        simpa using hall (rest.get ⟨m, hm⟩) (List.get_mem rest m hm)
      · rw [if_neg hpa] at h
        omega
    · rw [if_pos hr0] at h
      obtain ⟨n, hn⟩ : ∃ n : ℕ, findFromTop p rest = (n : ℤ) :=
        ⟨(findFromTop p rest).toNat, (Int.toNat_of_nonneg hr0).symm⟩
      have hj : j = n + 1 := by omega
      subst hj
      obtain ⟨hlt, hhit, habove⟩ := ih n hn
      refine ⟨by simpa using Nat.succ_lt_succ hlt, by simpa using hhit, ?_⟩
      intro k hk hkgt
      obtain ⟨m, rfl⟩ : ∃ m, k = m + 1 := ⟨k - 1, by omega⟩
      simpa using habove m (by simpa using hk) (by omega)

/-- C9: `findRootMotionRepMove` scans the replay buffer from the most recent
entry to the oldest and returns the first (hence most recent) usable entry's
index, `-1` (`INDEX_NONE`) when no entry qualifies; a returned entry always
lies inside the 0.5-second receipt window; and an entry is usable exactly
when its receipt age is at most 0.5s, its montage is non-null and equals the
client's, server and client positions resolve to the same valid montage
section, the move has not loop-wrapped past half a section length, and the
entry's track position is not ahead of the client's. -/
theorem findRootMotionRepMove_spec :
    ∀ (worldTime : ℚ) (mq : MontageQueries) (client : FAnimMontageInstanceState)
      (moves : List FBaseSimulatedRootMotionReplicatedMove),
      (findRootMotionRepMove worldTime mq client moves = -1 ↔
        ∀ mv ∈ moves, canUseRootMotionRepMove worldTime mq client mv = false) ∧
      (∀ j : ℕ, findRootMotionRepMove worldTime mq client moves = (j : ℤ) →
        ∃ hj : j < moves.length,
          canUseRootMotionRepMove worldTime mq client (moves.get ⟨j, hj⟩) = true ∧
          worldTime - (moves.get ⟨j, hj⟩).time ≤ 1 / 2 ∧
          ∀ k (hk : k < moves.length), j < k →
            canUseRootMotionRepMove worldTime mq client (moves.get ⟨k, hk⟩) = false) ∧
      (∀ mv : FBaseSimulatedRootMotionReplicatedMove,
        canUseRootMotionRepMove worldTime mq client mv = true ↔
          (worldTime - mv.time ≤ 1 / 2 ∧
           mv.animMontage.isSome ∧ mv.animMontage = client.montage ∧
           mq.getSectionIndexFromPosition client.position ≠ -1 ∧
           mq.getSectionIndexFromPosition mv.position =
             mq.getSectionIndexFromPosition client.position ∧
           ¬(mq.getNextSectionID (mq.getSectionIndexFromPosition client.position) =
               mq.getSectionIndexFromPosition client.position ∧
             |client.position - mv.position| >
               mq.getSectionLength (mq.getSectionIndexFromPosition client.position) / 2) ∧
           ¬((client.position - mv.position) * client.playRate < 0))) := by
  intro worldTime mq client moves
  have hcan : ∀ mv : FBaseSimulatedRootMotionReplicatedMove,
      canUseRootMotionRepMove worldTime mq client mv = true ↔
        (worldTime - mv.time ≤ 1 / 2 ∧
         mv.animMontage.isSome ∧ mv.animMontage = client.montage ∧
         mq.getSectionIndexFromPosition client.position ≠ -1 ∧
         mq.getSectionIndexFromPosition mv.position =
           mq.getSectionIndexFromPosition client.position ∧
         ¬(mq.getNextSectionID (mq.getSectionIndexFromPosition client.position) =
             mq.getSectionIndexFromPosition client.position ∧
           |client.position - mv.position| >
             mq.getSectionLength (mq.getSectionIndexFromPosition client.position) / 2) ∧
         ¬((client.position - mv.position) * client.playRate < 0)) := by
    intro mv
    unfold canUseRootMotionRepMove
    by_cases h1 : worldTime - mv.time ≤ 1 / 2
    · rw [if_pos h1]
      by_cases h2 : mv.animMontage.isSome ∧ mv.animMontage = client.montage
      · rw [if_pos h2]
        by_cases h3 : mq.getSectionIndexFromPosition client.position ≠ -1
        · rw [if_pos h3]
          simp only [Bool.and_eq_true, decide_eq_true_eq, Bool.not_eq_true',
            decide_eq_false_iff_not]
          constructor
          · rintro ⟨⟨hs, hl⟩, ha⟩
            exact ⟨h1, h2.1, h2.2, h3, hs, hl, ha⟩
          · rintro ⟨_, _, _, _, hs, hl, ha⟩
            exact ⟨⟨hs, hl⟩, ha⟩
        · rw [if_neg h3]
          simp only [Bool.false_eq_true, false_iff]
          rintro ⟨_, _, _, hc, _⟩
          exact h3 hc
      · rw [if_neg h2]
        simp only [Bool.false_eq_true, false_iff]
        rintro ⟨_, hA, hB, _⟩
        exact h2 ⟨hA, hB⟩
    · rw [if_neg h1]
      simp only [Bool.false_eq_true, false_iff]
      rintro ⟨hA, _⟩
      exact h1 hA
  refine ⟨?_, ?_, hcan⟩
  · exact findFromTop_eq_neg_one_iff _ moves
  · intro j h
    obtain ⟨hj, hhit, habove⟩ := findFromTop_found _ moves j h
    exact ⟨hj, hhit, ((hcan _).1 hhit).1, habove⟩

/-- Witness for C9 at a concrete input: with world time 10, a buffer whose
older entry is stale and whose most recent entry is usable; the scan returns
index 1 and the returned entry is inside the 0.5-second window. -/
theorem findRootMotionRepMove_spec_witness :
    findRootMotionRepMove 10 sampleMontageQueries sampleClientMontage sampleRepMoves
      = ((1 : ℕ) : ℤ) ∧
    ∃ hj : 1 < sampleRepMoves.length,
      canUseRootMotionRepMove 10 sampleMontageQueries sampleClientMontage
        (sampleRepMoves.get ⟨1, hj⟩) = true ∧
      10 - (sampleRepMoves.get ⟨1, hj⟩).time ≤ 1 / 2 := by
  have hfind : findRootMotionRepMove 10 sampleMontageQueries sampleClientMontage
      sampleRepMoves = ((1 : ℕ) : ℤ) := by
    norm_num [findRootMotionRepMove, findFromTop, canUseRootMotionRepMove,
      sampleMontageQueries, sampleClientMontage, sampleRepMoves]
  refine ⟨hfind, ?_⟩
  obtain ⟨hj, hhit, hage, _⟩ := (findRootMotionRepMove_spec 10 sampleMontageQueries
    sampleClientMontage sampleRepMoves).2.1 1 hfind
  exact ⟨hj, hhit, hage⟩

/-! ## C10: group equality never compares `LocalID` -/

/-- Every variant payload matches itself (all tolerances are positive). -/
theorem matchesVariant_self (v : RMSVariant) : matchesVariant v v = true := by
  cases v <;>
    simp [matchesVariant, FVector.pointsAreNear, FMath.isNearlyEqual,
      FRotator.equals, UE_SMALL_NUMBER, abs_zero, sub_self]

/-- Every variant payload has the same state as itself. -/
theorem sameStateVariant_self (v : RMSVariant) : sameStateVariant v v = true := by
  cases v <;>
    simp [sameStateVariant, FVector.equals, UE_KINDA_SMALL_NUMBER, abs_zero, sub_self]

/-- Two sources that agree on everything except `LocalID` satisfy
`MatchesAndHasSameState`. -/
theorem matchesAndHasSameState_of_eq_except_localID
    (s t : FBaseRootMotionSource)
    (h : ({ s with localID := 0 } : FBaseRootMotionSource) = { t with localID := 0 }) :
    s.matchesAndHasSameState t = true := by
  have hpr : s.priority = t.priority := congrArg (fun r => r.priority) h
  have hmo : s.accumulateMode = t.accumulateMode :=
    congrArg (fun r => r.accumulateMode) h
  have hls : s.bInLocalSpace = t.bInLocalSpace :=
    congrArg (fun r => r.bInLocalSpace) h
  have hna : s.instanceName = t.instanceName :=
    congrArg (fun r => r.instanceName) h
  have hdu : s.duration = t.duration := congrArg (fun r => r.duration) h
  have hst : s.status = t.status := congrArg (fun r => r.status) h
  have hct : s.currentTime = t.currentTime :=
    congrArg (fun r => r.currentTime) h
  have hva : s.variant = t.variant := congrArg (fun r => r.variant) h
  have hsmall : FMath.isNearlyEqual t.duration t.duration UE_SMALL_NUMBER = true := by
    unfold FMath.isNearlyEqual
    norm_num [UE_SMALL_NUMBER]
  unfold FBaseRootMotionSource.matchesAndHasSameState FBaseRootMotionSource.Matches
  unfold FBaseRootMotionSource.scriptStruct FBaseRootMotionSource.getTime
  rw [hpr, hmo, hls, hna, hdu, hst, hct, hva]
  simp [matchesVariant_self, sameStateVariant_self, hsmall]

/-- The per-index `operator==` loop succeeds on lists that are element-wise
equal up to `LocalID`. -/
theorem entriesMatchAndHaveSameState_of_eq_except_localID :
    ∀ (xs ys : List (Option FBaseRootMotionSource)),
      List.Forall₂ (fun x y =>
        match x, y with
        | some s, some t =>
          ({ s with localID := 0 } : FBaseRootMotionSource) = { t with localID := 0 }
        | none, none => True
        | _, _ => False) xs ys →
      entriesMatchAndHaveSameState xs ys = true := by
  intro xs ys h
  induction h with
  | nil => rfl
  | cons hxy _ ih =>
    next x y xs' ys' _ =>
      cases x with
      | some s =>
        cases y with
        | some t =>
          have hm := matchesAndHasSameState_of_eq_except_localID s t hxy
          simp [entriesMatchAndHaveSameState, hm, ih]
        | none => exact hxy.elim
      | none =>
        cases y with
        | some t => exact hxy.elim
        | none => simp [entriesMatchAndHaveSameState, ih]

/-- C10: group `operator==` never compares `LocalID` — two groups whose
active and pending lists agree element-wise on every field except `LocalID`,
whose scalar flags agree and whose `LastPreAdditiveVelocity` agrees within
tolerance 1.0, compare equal no matter what local ids the corresponding
sources carry. -/
theorem groupEq_ignores_localID :
    ∀ (a b : FBaseRootMotionSourceGroup),
      a.bHasAdditiveSources = b.bHasAdditiveSources →
      a.bHasOverrideSources = b.bHasOverrideSources →
      a.bHasOverrideSourcesWithIgnoreZAccumulate =
        b.bHasOverrideSourcesWithIgnoreZAccumulate →
      a.bIsAdditiveVelocityApplied = b.bIsAdditiveVelocityApplied →
      FVector.equals a.lastPreAdditiveVelocity b.lastPreAdditiveVelocity 1 = true →
      List.Forall₂ (fun x y =>
        match x, y with
        | some s, some t =>
          ({ s with localID := 0 } : FBaseRootMotionSource) = { t with localID := 0 }
        | none, none => True
        | _, _ => False) a.rootMotionSources b.rootMotionSources →
      List.Forall₂ (fun x y =>
        match x, y with
        | some s, some t =>
          ({ s with localID := 0 } : FBaseRootMotionSource) = { t with localID := 0 }
        | none, none => True
        | _, _ => False) a.pendingAddRootMotionSources b.pendingAddRootMotionSources →
      a.groupEq b = true := by
  intro a b h1 h2 h3 h4 hvel hact hpend
  unfold FBaseRootMotionSourceGroup.groupEq
  rw [if_neg (by simp [h1, h2, h3, h4, hvel])]
  rw [if_neg (by simp [hact.length_eq])]
  rw [if_neg (by simp [hpend.length_eq])]
  simp [entriesMatchAndHaveSameState_of_eq_except_localID _ _ hact,
    entriesMatchAndHaveSameState_of_eq_except_localID _ _ hpend]

/-- Witness for C10 at a concrete input: two one-source groups whose sources
differ only in `LocalID` (3 vs 400) compare equal. -/
theorem groupEq_ignores_localID_witness :
    FBaseRootMotionSourceGroup.groupEq
      { rootMotionSources := [some { localID := 3, variant := .constantForce {} }] }
      { rootMotionSources := [some { localID := 400, variant := .constantForce {} }] }
      = true := by
  refine groupEq_ignores_localID _ _ rfl rfl rfl rfl ?_ ?_ ?_
  · simp [FVector.equals, FVector.zero]
  · exact List.Forall₂.cons rfl List.Forall₂.nil
  · exact List.Forall₂.nil

/-! ## C3: additive removal continuity -/

/-- The cleanup scan leaves `Velocity` and `LastPreAdditiveVelocity`
untouched over entries that are not flagged for removal. -/
theorem cleanUpActiveSources_state_unflagged (env : EngineEnv)
    (mc : UBaseCharacterMovementComponentState) (bApp : Bool) :
    ∀ (L : List (Option FBaseRootMotionSource)) (vel lastPre : FVector),
      (∀ u : FBaseRootMotionSource, some u ∈ L →
        u.status.hasFlag .MarkedForRemoval = false ∧
        u.status.hasFlag .Finished = false) →
      (cleanUpActiveSources env mc bApp L vel lastPre).2 = (vel, lastPre) := by
  intro L
  induction L with
  | nil => intro vel lastPre _; rfl
  | cons e rest ih =>
    intro vel lastPre hall
    cases e with
    | none => exact ih vel lastPre fun u hu => hall u (by simp [hu])
    | some u =>
      have hu := hall u (by simp)
      simp only [cleanUpActiveSources]
      rw [if_pos (by simp [hu.1, hu.2])]
      simpa using ih vel lastPre fun v hv => hall v (by simp [hv])

/-- The cleanup scan of an unflagged prefix followed by a remainder threads
the state to the remainder unchanged. -/
theorem cleanUpActiveSources_state_append (env : EngineEnv)
    (mc : UBaseCharacterMovementComponentState) (bApp : Bool) :
    ∀ (A rest : List (Option FBaseRootMotionSource)) (vel lastPre : FVector),
      (∀ u : FBaseRootMotionSource, some u ∈ A →
        u.status.hasFlag .MarkedForRemoval = false ∧
        u.status.hasFlag .Finished = false) →
      (cleanUpActiveSources env mc bApp (A ++ rest) vel lastPre).2 =
        (cleanUpActiveSources env mc bApp rest vel lastPre).2 := by
  intro A
  induction A with
  | nil => intro rest vel lastPre _; rfl
  | cons e A' ih =>
    intro rest vel lastPre hall
    cases e with
    | none =>
      simpa [cleanUpActiveSources] using
        ih rest vel lastPre fun u hu => hall u (by simp [hu])
    | some u =>
      have hu := hall u (by simp)
      simp only [List.cons_append, cleanUpActiveSources]
      rw [if_pos (by simp [hu.1, hu.2])]
      simpa using ih rest vel lastPre fun v hv => hall v (by simp [hv])

/-- C3: removing an Additive-mode source via `CleanUpInvalidRootMotion` while
`bIsAdditiveVelocityApplied` is true adds the source's (world-space)
contribution to `LastPreAdditiveVelocity` — the snapshot grows by exactly the
removed contribution instead of dropping to zero.  (The other active sources
are not flagged for removal, and the removed source carries the default
maintain finish-velocity policy and no `IgnoreZAccumulate`.) -/
theorem cleanup_additive_removal_continuity :
    ∀ (env : EngineEnv) (mc : UBaseCharacterMovementComponentState)
      (g : FBaseRootMotionSourceGroup) (A B : List (Option FBaseRootMotionSource))
      (src : FBaseRootMotionSource),
      g.bIsAdditiveVelocityApplied = true →
      g.rootMotionSources = A ++ some src :: B →
      (∀ u : FBaseRootMotionSource, some u ∈ A →
        u.status.hasFlag .MarkedForRemoval = false ∧
        u.status.hasFlag .Finished = false) →
      (∀ u : FBaseRootMotionSource, some u ∈ B →
        u.status.hasFlag .MarkedForRemoval = false ∧
        u.status.hasFlag .Finished = false) →
      (src.status.hasFlag .MarkedForRemoval = true ∨
        src.status.hasFlag .Finished = true) →
      src.accumulateMode = .Additive →
      src.finishVelocityParams.mode = .MaintainLastRootMotionVelocity →
      src.settings.hasFlag .IgnoreZAccumulate = false →
      (g.cleanUpInvalidRootMotion env mc).1.lastPreAdditiveVelocity =
        g.lastPreAdditiveVelocity +
          (match src.bInLocalSpace, mc.updatedComponentRotation with
           | true, some rot => rot src.rootMotionTranslation
           | _, _ => src.rootMotionTranslation) := by
  intro env mc g A B src hApp hsrc hA hB hflag hmode hfinish hnoZ
  unfold FBaseRootMotionSourceGroup.cleanUpInvalidRootMotion
  simp only [hsrc, hApp]
  rw [cleanUpActiveSources_state_append env mc true A (some src :: B)
    mc.velocity g.lastPreAdditiveVelocity hA]
  simp only [cleanUpActiveSources]
  rw [if_neg (by
    rcases hflag with h | h
    · simp [h]
    · simp [h])]
  simp only [hmode, hfinish]
  norm_num
  rw [cleanUpActiveSources_state_unflagged env mc true B _ _ hB]
  unfold accumulateRootMotionVelocityFromSource
  rw [hmode, hnoZ]
  cases hloc : src.bInLocalSpace <;> cases hrot : mc.updatedComponentRotation <;> simp

/-- Witness for C3 at a concrete input: a one-source group with additive
velocity applied; removing the marked additive source with translation
(10, 0, 0) raises `LastPreAdditiveVelocity` from (1, 2, 3) to (11, 2, 3). -/
theorem cleanup_additive_removal_continuity_witness :
    (sampleAdditiveGroup.cleanUpInvalidRootMotion trivialEngineEnv
      {}).1.lastPreAdditiveVelocity = ⟨11, 2, 3⟩ := by
  have h := cleanup_additive_removal_continuity trivialEngineEnv {}
    sampleAdditiveGroup [] [] sampleAdditiveSource
    rfl rfl (by intro u hu; simp at hu) (by intro u hu; simp at hu)
    (Or.inl rfl) rfl rfl rfl
  rw [h]
  show sampleAdditiveGroup.lastPreAdditiveVelocity + ⟨10, 0, 0⟩ = ⟨11, 2, 3⟩
  show (⟨1, 2, 3⟩ : FVector) + ⟨10, 0, 0⟩ = ⟨11, 2, 3⟩
  rw [show ((⟨1, 2, 3⟩ : FVector) + ⟨10, 0, 0⟩) = (⟨1 + 10, 2 + 0, 3 + 0⟩ : FVector) from rfl]
  norm_num

/-! ## C1: override accumulation applies exactly the highest-priority
override source -/

/-- Every variant's `PrepareRootMotion` leaves `AccumulateMode` unchanged. -/
theorem prepareRootMotionSource_accumulateMode (env : EngineEnv)
    (simulationTime movementTickTime : ℚ) (ch : ABaseCharacterState)
    (s : FBaseRootMotionSource) :
    (prepareRootMotionSource env simulationTime movementTickTime ch s).accumulateMode =
      s.accumulateMode := by
  have hset : ∀ (u : FBaseRootMotionSource) (q : ℚ),
      (u.setTime q).accumulateMode = u.accumulateMode := by
    intro u q
    unfold FBaseRootMotionSource.setTime FBaseRootMotionSource.checkTimeOut
    split_ifs <;> rfl
  cases hv : s.variant
  all_goals simp only [prepareRootMotionSource, hv, prepareConstantForce,
    prepareRadialForce, prepareMoveToForce, prepareMoveToDynamicForce, prepareJumpForce]
  all_goals first
    | rw [hset]
    | rfl

/-- The group-preparation step preserves a source's `AccumulateMode`. -/
theorem prepareStep_accumulateMode (env : EngineEnv) (deltaTime : ℚ)
    (ch : ABaseCharacterState) (fA : Bool) (u t : FBaseRootMotionSource)
    (h : prepareStep env deltaTime ch fA (some u) = some t) :
    t.accumulateMode = u.accumulateMode := by
  simp only [prepareStep] at h
  by_cases hc : (!(u.status.hasFlag .Prepared) || fA) = true
  · rw [if_pos hc] at h
    have := Option.some.inj h
    rw [← this]
    simp [prepareRootMotionSource_accumulateMode]
  · rw [if_neg hc] at h
    rw [← Option.some.inj h]

/-- The C1 general part: override accumulation applies the first valid
Override-mode source in the (priority-sorted) list and discards everything
after it; earlier entries of other modes (or invalid entries) do not touch
the velocity. -/
theorem accumulateRootMotionVelocity_first_override
    (mc : UBaseCharacterMovementComponentState) :
    ∀ (l₁ l₂ : List (Option FBaseRootMotionSource)) (s : FBaseRootMotionSource)
      (v : FVector),
      (∀ u : FBaseRootMotionSource, some u ∈ l₁ → u.accumulateMode ≠ .Override) →
      s.accumulateMode = .Override →
      accumulateRootMotionVelocity .Override mc (l₁ ++ some s :: l₂) v =
        accumulateRootMotionVelocityFromSource mc s v := by
  intro l₁
  induction l₁ with
  | nil =>
    intro l₂ s v _ hs
    simp [accumulateRootMotionVelocity, hs]
  | cons e rest ih =>
    intro l₂ s v hskip hs
    cases e with
    | none =>
      simpa [accumulateRootMotionVelocity] using
        ih l₂ s v (fun u hu => hskip u (by simp [hu])) hs
    | some u =>
      have hu : u.accumulateMode ≠ .Override := hskip u (by simp)
      simp only [List.cons_append, accumulateRootMotionVelocity]
      rw [if_neg hu]
      exact ih l₂ s v (fun w hw => hskip w (by simp [hw])) hs

/-- C1: (general part) override accumulation uses exactly the first
Override-mode source of the prepared (priority-sorted) list; (scenario) for
a group holding exactly three Override-mode sources of priorities 5, 1 and 9
— in any order — the full prepare-then-accumulate pipeline yields exactly
the prepared priority-9 source's contribution, independent of application
order, and equals that source's stored translation when it has no
IgnoreZAccumulate flag and is in world space. -/
theorem accumulateOverride_highest_priority :
    (∀ (mc : UBaseCharacterMovementComponentState)
       (l₁ l₂ : List (Option FBaseRootMotionSource)) (s : FBaseRootMotionSource)
       (v : FVector),
      (∀ u : FBaseRootMotionSource, some u ∈ l₁ → u.accumulateMode ≠ .Override) →
      s.accumulateMode = .Override →
      accumulateRootMotionVelocity .Override mc (l₁ ++ some s :: l₂) v =
        accumulateRootMotionVelocityFromSource mc s v) ∧
    (∀ (env : EngineEnv) (deltaTime : ℚ) (ch : ABaseCharacterState)
       (mc : UBaseCharacterMovementComponentState) (g : FBaseRootMotionSourceGroup)
       (l : List FBaseRootMotionSource) (s5 s1 s9 : FBaseRootMotionSource)
       (v : FVector),
      g.rootMotionSources ++ g.pendingAddRootMotionSources = l.map some →
      l.Perm [s5, s1, s9] →
      s5.priority = 5 → s1.priority = 1 → s9.priority = 9 →
      s5.accumulateMode = .Override → s1.accumulateMode = .Override →
      s9.accumulateMode = .Override →
      ∀ t9 : FBaseRootMotionSource,
        prepareStep env deltaTime ch false (some s9) = some t9 →
        (g.prepareRootMotion env deltaTime ch false).accumulateOverrideRootMotionVelocity
            mc v =
          accumulateRootMotionVelocityFromSource mc t9 v ∧
        (t9.settings.hasFlag .IgnoreZAccumulate = false → t9.bInLocalSpace = false →
          (g.prepareRootMotion env deltaTime ch false).accumulateOverrideRootMotionVelocity
              mc v =
            t9.rootMotionTranslation)) := by
  refine ⟨accumulateRootMotionVelocity_first_override, ?_⟩
  intro env deltaTime ch mc g l s5 s1 s9 v hlist hperm hp5 hp1 hp9 hm5 hm1 hm9 t9 ht9
  have hlen : l.length = 3 := by simpa using hperm.length_eq
  -- the comparator restricted to valid sources
  have hsort : sortByPriority (l.map some) =
      (l.mergeSort fun a b => !(rmsPriorityCompare (some b) (some a))).map some := by
    unfold sortByPriority
    rw [if_pos (by simp [hlen])]
    exact (List.map_mergeSort
      (r := fun a b : FBaseRootMotionSource => !(rmsPriorityCompare (some b) (some a)))
      (s := fun a b => !(rmsPriorityCompare b a)) (f := some)
      (fun a _ b _ => rfl)).symm
  -- the sorted list starts with the priority-9 source
  obtain ⟨rest, hm⟩ : ∃ rest,
      (l.mergeSort fun a b => !(rmsPriorityCompare (some b) (some a))) = s9 :: rest := by
    have hperm' :
        (l.mergeSort fun a b => !(rmsPriorityCompare (some b) (some a))).Perm
          [s5, s1, s9] :=
      (List.mergeSort_perm l _).trans hperm
    have hsorted :=
      @List.sorted_mergeSort FBaseRootMotionSource
        (fun a b : FBaseRootMotionSource => !(rmsPriorityCompare (some b) (some a)))
        (fun a b c hab hbc => by
          simp only [rmsPriorityCompare, Bool.not_eq_true', decide_eq_false_iff_not,
            not_lt] at hab hbc ⊢
          omega)
        (fun a b => by
          simp only [rmsPriorityCompare, Bool.not_eq_true', decide_eq_false_iff_not,
            not_lt, Bool.or_eq_true, decide_eq_true_eq]
          by_cases h : a.priority ≤ b.priority
          · right
            simpa [rmsPriorityCompare] using h
          · left
            simpa [rmsPriorityCompare] using le_of_not_le h)
        l
    cases hml : (l.mergeSort fun a b => !(rmsPriorityCompare (some b) (some a))) with
    | nil =>
      rw [hml] at hperm'
      simpa using hperm'.length_eq
    | cons x rest =>
      rw [hml] at hperm' hsorted
      have hx : x ∈ [s5, s1, s9] := hperm'.subset (by simp)
      have hs9 : s9 ∈ x :: rest := hperm'.mem_iff.2 (by simp)
      have hxeq : x = s9 := by
        rcases List.mem_cons.1 hs9 with h9 | h9
        · exact h9.symm
        · have hr : (!(rmsPriorityCompare (some s9) (some x))) = true :=
            (List.pairwise_cons.1 hsorted).1 s9 h9
          simp only [rmsPriorityCompare, Bool.not_eq_true', decide_eq_false_iff_not,
            not_lt] at hr
          rcases (by simpa using hx) with rfl | rfl | rfl
          · rw [hp5, hp9] at hr
            omega
          · rw [hp1, hp9] at hr
            omega
          · rfl
      exact ⟨rest, by rw [hxeq]⟩
  -- the prepared group's source list
  have hsources : (g.prepareRootMotion env deltaTime ch false).rootMotionSources =
      some t9 :: (rest.map some).map (prepareStep env deltaTime ch false) := by
    show ((sortByPriority (g.rootMotionSources ++ g.pendingAddRootMotionSources)).map
      (prepareStep env deltaTime ch false)) = _
    rw [hlist, hsort, hm]
    simp [ht9]
  have hmode : t9.accumulateMode = .Override := by
    rw [prepareStep_accumulateMode env deltaTime ch false s9 t9 ht9, hm9]
  have hmain : (g.prepareRootMotion env deltaTime ch false).accumulateOverrideRootMotionVelocity
      mc v = accumulateRootMotionVelocityFromSource mc t9 v := by
    unfold FBaseRootMotionSourceGroup.accumulateOverrideRootMotionVelocity
    rw [hsources]
    simp [accumulateRootMotionVelocity, hmode]
  refine ⟨hmain, ?_⟩
  intro hnoZ hworld
  rw [hmain]
  unfold accumulateRootMotionVelocityFromSource
  rw [hmode, hnoZ, hworld]
  simp

/-- Witness for C1 at a concrete input: the three sample override sources
(priorities 5, 1, 9) run through the full prepare-then-accumulate pipeline;
the result is exactly the prepared priority-9 source's translation. -/
theorem accumulateOverride_highest_priority_witness :
    prepareStep trivialEngineEnv 1 {} false (some sampleOverride9) =
      some samplePrepared9 ∧
    (sampleOverrideGroup.prepareRootMotion trivialEngineEnv 1 {}
        false).accumulateOverrideRootMotionVelocity {} FVector.zero =
      samplePrepared9.rootMotionTranslation := by
  have ht9 : prepareStep trivialEngineEnv 1 {} false (some sampleOverride9) =
      some samplePrepared9 := rfl
  refine ⟨ht9, ?_⟩
  have h := (accumulateOverride_highest_priority.2 trivialEngineEnv 1 {} {}
    sampleOverrideGroup [sampleOverride5, sampleOverride1, sampleOverride9]
    sampleOverride5 sampleOverride1 sampleOverride9 FVector.zero
    rfl (List.Perm.refl _) rfl rfl rfl rfl rfl rfl
    samplePrepared9 ht9).2 (by decide) (by decide)
  exact h

/-! ## C4: `NetSerialize` round trip -/

/-- The mode byte cast round-trips. -/
theorem byteToAccumulateMode_toByte (m : EBaseRootMotionAccumulateMode) :
    byteToAccumulateMode (accumulateModeToByte m) = m := by
  cases m <;> rfl

/-- Reading a written source into an instance of the same concrete type
consumes exactly the written items and overwrites exactly the serialized
fields. -/
theorem netReadSource_netWriteSource (s d : FBaseRootMotionSource)
    (rest : List WireVal) (h : d.scriptStruct = s.scriptStruct) :
    netReadSource d { items := netWriteSource s ++ rest, err := false } =
      (overwriteSerializedFields d s, { items := rest, err := false }) := by
  cases hs : s.variant <;> cases hd : d.variant <;>
    simp_all [FBaseRootMotionSource.scriptStruct, RMSVariant.tag] <;>
    simp [netReadSource, netReadBase, netReadVariant, netWriteSource, netWriteBase,
      netWriteVariant, hs, hd, WireArchive.readInt, WireArchive.readU16,
      WireArchive.readByte, WireArchive.readName, WireArchive.readFloat,
      WireArchive.readBool, WireArchive.readVec, WireArchive.readRot,
      WireArchive.readObj, WireArchive.readStatus, WireArchive.readSettings,
      WireArchive.readWith, byteToAccumulateMode_toByte,
      overwriteSerializedFields]

/-- C4 counterexample: a constant-force source whose `StartTime` is 1 does
not survive the write-then-read-into-default round trip — the produced
instance carries the default (invalid sentinel) start time, although
`StartTime` is a configuration field and not a local-bookkeeping status
flag. -/
theorem netRoundTrip_drops_startTime :
    sampleRoundTripSource.startTime = 1 ∧
    (netRoundTrip sampleRoundTripSource).startTime ≠ sampleRoundTripSource.startTime ∧
    (netRoundTrip sampleRoundTripSource).startTime = RootMotionSource_InvalidStartTime := by
  have h := netReadSource_netWriteSource sampleRoundTripSource
    (defaultSource sampleRoundTripSource.scriptStruct) [] rfl
  have hrt : netRoundTrip sampleRoundTripSource =
      overwriteSerializedFields (defaultSource sampleRoundTripSource.scriptStruct)
        sampleRoundTripSource := by
    unfold netRoundTrip
    rw [show ({ items := netWriteSource sampleRoundTripSource } : WireArchive) =
      { items := netWriteSource sampleRoundTripSource ++ [], err := false } by simp]
    rw [h]
  refine ⟨rfl, ?_, ?_⟩
  · rw [hrt]
    show RootMotionSource_InvalidStartTime ≠ (1 : ℚ)
    norm_num [RootMotionSource_InvalidStartTime, UE_BIG_NUMBER]
  · rw [hrt]
    rfl

/-- C4 (amended): for every concrete variant and every field assignment,
`netSerialize(write)` followed by `netSerialize(read)` into a
default-constructed same-variant instance reproduces exactly the serialized
fields — priority, local id, accumulate mode, instance name, current time,
duration, status flags, local-space flag and all variant-specific
configuration fields — while `StartTime`, `PreviousTime`, the settings
flags, and the local-bookkeeping catch-up/smoothing flags keep the
default-constructed instance's values (they are not wire-transferred). -/
theorem netRoundTrip_characterization :
    ∀ s : FBaseRootMotionSource,
      netRoundTrip s = overwriteSerializedFields (defaultSource s.scriptStruct) s ∧
      (netRoundTrip s).startTime = (defaultSource s.scriptStruct).startTime ∧
      (netRoundTrip s).previousTime = (defaultSource s.scriptStruct).previousTime ∧
      (netRoundTrip s).settings = (defaultSource s.scriptStruct).settings ∧
      (netRoundTrip s).bNeedsSimulatedCatchup = false ∧
      (netRoundTrip s).bSimulatedNeedsSmoothing = false := by
  intro s
  have hd : (defaultSource s.scriptStruct).scriptStruct = s.scriptStruct := by
    cases hv : s.variant <;>
      simp [FBaseRootMotionSource.scriptStruct, hv, RMSVariant.tag, defaultSource]
  have h := netReadSource_netWriteSource s (defaultSource s.scriptStruct) [] hd
  have hrt : netRoundTrip s =
      overwriteSerializedFields (defaultSource s.scriptStruct) s := by
    unfold netRoundTrip
    rw [show ({ items := netWriteSource s } : WireArchive) =
      { items := netWriteSource s ++ [], err := false } by simp]
    rw [h]
  refine ⟨hrt, ?_, ?_, ?_, ?_, ?_⟩ <;>
    rw [hrt] <;>
    cases hv : s.variant <;>
      simp [overwriteSerializedFields, defaultSource, FBaseRootMotionSource.scriptStruct,
        hv, RMSVariant.tag]

/-- Witness for C4 at a concrete input: a radial-force source with modified
priority, time and payload round-trips to exactly the serialized-field
overwrite of a default radial instance. -/
theorem netRoundTrip_characterization_witness :
    netRoundTrip sampleRadialRoundTrip =
      overwriteSerializedFields (defaultSource sampleRadialRoundTrip.scriptStruct)
        sampleRadialRoundTrip ∧
    (netRoundTrip sampleRadialRoundTrip).priority = 3 := by
  refine ⟨(netRoundTrip_characterization _).1, ?_⟩
  rw [(netRoundTrip_characterization _).1]
  rfl

/-! ## C8: protocol-error handling in group deserialization -/

/-- A default-constructed instance has the tag it was built from. -/
theorem defaultSource_scriptStruct (t : RMSTag) :
    (defaultSource t).scriptStruct = t := by
  cases t <;> rfl

/-- Whenever group `NetSerialize` finishes with an errored archive it reports
failure and leaves only valid entries in both lists; with a clean archive it
reports success. -/
theorem netSerializeLoad_error_cleanup (g : FBaseRootMotionSourceGroup)
    (ar : WireArchive) :
    ((g.netSerializeLoad ar).2.1.err = true →
      (g.netSerializeLoad ar).2.2.1 = false ∧
      (g.netSerializeLoad ar).2.2.2 = false ∧
      (∀ e ∈ (g.netSerializeLoad ar).1.rootMotionSources, e.isSome = true) ∧
      (∀ e ∈ (g.netSerializeLoad ar).1.pendingAddRootMotionSources, e.isSome = true)) ∧
    ((g.netSerializeLoad ar).2.1.err = false →
      (g.netSerializeLoad ar).2.2.1 = true ∧ (g.netSerializeLoad ar).2.2.2 = true) := by
  unfold FBaseRootMotionSourceGroup.netSerializeLoad
  repeat' split
  all_goals rename_i herr
  · constructor
    · intro _
      refine ⟨rfl, rfl, ?_, ?_⟩ <;>
        · intro e he
          simp only [List.mem_filter] at he
          exact he.2
    · intro hfalse
      simp_all
  · constructor
    · intro htrue
      simp_all
    · intro _
      exact ⟨rfl, rfl⟩

/-- `SetNumZeroed` always produces exactly the requested number of slots. -/
theorem setNumZeroed_length (l : List (Option FBaseRootMotionSource)) (n : ℕ) :
    (setNumZeroed l n).length = n := by
  simp only [setNumZeroed, List.length_append, List.length_take, List.length_replicate]
  omega

/-- The array-loading loop, fed any number of well-formed source records
followed by a type tag that is not a strict descendant of
`FBaseRootMotionSource` (the base struct itself, a foreign struct, or an
errored reference), reads exactly up to the offending tag, flags the archive
error and stops: the data after the bad tag is left unread. -/
theorem netSerializeRMSArrayLoadLoop_bad_tag :
    ∀ (sources : List FBaseRootMotionSource)
      (slots : List (Option FBaseRootMotionSource)) (r : WireStructRef)
      (rest : List WireVal),
      sources.length < slots.length →
      (r = .baseStruct ∨ r = .foreign ∨ r = .errorRef) →
      (netSerializeRMSArrayLoadLoop slots
        { items := (sources.map
            (fun s => WireVal.wStruct (.rms s.scriptStruct) :: netWriteSource s)).flatten ++
            WireVal.wStruct r :: rest,
          err := false }).2.err = true ∧
      (netSerializeRMSArrayLoadLoop slots
        { items := (sources.map
            (fun s => WireVal.wStruct (.rms s.scriptStruct) :: netWriteSource s)).flatten ++
            WireVal.wStruct r :: rest,
          err := false }).2.items = rest := by
  intro sources
  induction sources with
  | nil =>
    intro slots r rest hlen hbad
    cases slots with
    | nil => simp at hlen
    | cons e slots' =>
      simp only [List.map_nil, List.flatten_nil, List.nil_append,
        netSerializeRMSArrayLoadLoop, WireArchive.readStructRef, WireArchive.readWith]
      rcases hbad with rfl | rfl | rfl <;>
        simp [WireArchive.setError]
  | cons s ss ih =>
    intro slots r rest hlen hbad
    cases slots with
    | nil => simp at hlen
    | cons e slots' =>
      have hlen2 : ss.length < slots'.length := by simpa using hlen
      have hrec := ih slots' r rest hlen2 hbad
      have hstream : ((s :: ss).map
            (fun u => WireVal.wStruct (.rms u.scriptStruct) :: netWriteSource u)).flatten ++
            WireVal.wStruct r :: rest
          = WireVal.wStruct (.rms s.scriptStruct) :: (netWriteSource s ++
            ((ss.map (fun u => WireVal.wStruct (.rms u.scriptStruct) ::
              netWriteSource u)).flatten ++ WireVal.wStruct r :: rest)) := by
        simp
      rw [hstream]
      cases e with
      | none =>
        simp only [netSerializeRMSArrayLoadLoop, WireArchive.readStructRef,
          WireArchive.readWith, Bool.false_eq_true, if_false]
        rw [netReadSource_netWriteSource s (defaultSource s.scriptStruct) _
          (defaultSource_scriptStruct _)]
        simpa using hrec
      | some s0 =>
        simp only [netSerializeRMSArrayLoadLoop, WireArchive.readStructRef,
          WireArchive.readWith, Bool.false_eq_true, if_false]
        by_cases hsame : s0.scriptStruct = s.scriptStruct
        · rw [if_pos hsame]
          rw [netReadSource_netWriteSource s s0 _ hsame]
          simpa using hrec
        · rw [if_neg hsame]
          rw [netReadSource_netWriteSource s (defaultSource s.scriptStruct) _
            (defaultSource_scriptStruct _)]
          simpa using hrec

/-- Reading the count byte sizes the slots and hands over to the loop. -/
theorem netSerializeRMSArrayLoad_cons_byte
    (existing : List (Option FBaseRootMotionSource)) (n : ℕ) (S : List WireVal) :
    netSerializeRMSArrayLoad existing { items := WireVal.wByte n :: S, err := false } =
      netSerializeRMSArrayLoadLoop (setNumZeroed existing n)
        { items := S, err := false } := by
  simp [netSerializeRMSArrayLoad, WireArchive.readByte, WireArchive.readWith]

/-- On an already-errored archive the array load reads nothing: the count
byte read is a no-op yielding zero, the array is emptied, and the loop exits
immediately. -/
theorem netSerializeRMSArrayLoad_errored
    (existing : List (Option FBaseRootMotionSource)) (ar : WireArchive)
    (h : ar.err = true) :
    netSerializeRMSArrayLoad existing ar = ([], ar) := by
  simp [netSerializeRMSArrayLoad, WireArchive.readByte, WireArchive.readWith, h,
    setNumZeroed, netSerializeRMSArrayLoadLoop]

/-- `NetSerializeRMSArray` on a stream whose next record carries a
non-descendant or errored type tag: archive errored, trailing data
unread. -/
theorem netSerializeRMSArrayLoad_bad_tag
    (existing : List (Option FBaseRootMotionSource)) (n : ℕ)
    (sources : List FBaseRootMotionSource) (r : WireStructRef) (rest : List WireVal)
    (hlen : sources.length < n)
    (hbad : r = .baseStruct ∨ r = .foreign ∨ r = .errorRef) :
    (netSerializeRMSArrayLoad existing
      { items := WireVal.wByte n :: ((sources.map
          (fun s => WireVal.wStruct (.rms s.scriptStruct) :: netWriteSource s)).flatten ++
          WireVal.wStruct r :: rest),
        err := false }).2.err = true ∧
    (netSerializeRMSArrayLoad existing
      { items := WireVal.wByte n :: ((sources.map
          (fun s => WireVal.wStruct (.rms s.scriptStruct) :: netWriteSource s)).flatten ++
          WireVal.wStruct r :: rest),
        err := false }).2.items = rest := by
  rw [netSerializeRMSArrayLoad_cons_byte]
  exact netSerializeRMSArrayLoadLoop_bad_tag sources (setNumZeroed existing n) r rest
    (by rw [setNumZeroed_length]; exact hlen) hbad

/-- C8: a group wire message whose per-source type tag does not resolve to a
strict descendant of the root-motion-source base type (the base struct
itself, a foreign struct, or an errored reference) aborts deserialization:
the archive is flagged errored, the data after the offending tag is left
unread, the success flag and the return value are both `false`, and every
entry left in the group's active and pending lists is a valid
(fully-constructed) one; moreover, on any message at all that ends with an
errored archive, failure is reported and only valid entries remain in both
lists. -/
theorem netSerializeLoad_bad_tag_aborts
    (g : FBaseRootMotionSourceGroup) (b1 b2 b3 b4 : Bool) (vv : FVector)
    (st : FBaseRootMotionSourceSettings) (n : ℕ)
    (sources : List FBaseRootMotionSource) (r : WireStructRef) (rest : List WireVal)
    (hlen : sources.length < n)
    (hbad : r = .baseStruct ∨ r = .foreign ∨ r = .errorRef) :
    ((g.netSerializeLoad (badTagStream b1 b2 b3 b4 vv st n sources r rest)).2.1.err = true ∧
     (g.netSerializeLoad (badTagStream b1 b2 b3 b4 vv st n sources r rest)).2.1.items = rest ∧
     (g.netSerializeLoad (badTagStream b1 b2 b3 b4 vv st n sources r rest)).2.2.1 = false ∧
     (g.netSerializeLoad (badTagStream b1 b2 b3 b4 vv st n sources r rest)).2.2.2 = false ∧
     (∀ e ∈ (g.netSerializeLoad
        (badTagStream b1 b2 b3 b4 vv st n sources r rest)).1.rootMotionSources,
       e.isSome = true) ∧
     (∀ e ∈ (g.netSerializeLoad
        (badTagStream b1 b2 b3 b4 vv st n sources r rest)).1.pendingAddRootMotionSources,
       e.isSome = true)) ∧
    (∀ (g2 : FBaseRootMotionSourceGroup) (ar : WireArchive),
      (g2.netSerializeLoad ar).2.1.err = true →
      (g2.netSerializeLoad ar).2.2.1 = false ∧
      (g2.netSerializeLoad ar).2.2.2 = false ∧
      (∀ e ∈ (g2.netSerializeLoad ar).1.rootMotionSources, e.isSome = true) ∧
      (∀ e ∈ (g2.netSerializeLoad ar).1.pendingAddRootMotionSources, e.isSome = true)) := by
  constructor
  · have harr := netSerializeRMSArrayLoad_bad_tag g.rootMotionSources n sources r rest hlen hbad
    have hsecond := netSerializeRMSArrayLoad_errored g.pendingAddRootMotionSources _ harr.1
    unfold FBaseRootMotionSourceGroup.netSerializeLoad badTagStream
    simp only [WireArchive.readBool, WireArchive.readVec, WireArchive.readSettings,
      WireArchive.readWith, Bool.false_eq_true, if_false]
    rw [hsecond]
    simp only [harr.1, harr.2, if_true, List.mem_filter]
    exact ⟨trivial, trivial, trivial, trivial, fun e he => he.2, fun e he => he.2⟩
  · intro g2 ar herr
    exact (netSerializeLoad_error_cleanup g2 ar).1 herr

/-- Concrete run of the abort theorem: an empty group, a header, a count of
one and an immediate foreign type tag. -/
theorem netSerializeLoad_bad_tag_aborts_witness :
    ([] : List FBaseRootMotionSource).length < 1 ∧
    (({} : FBaseRootMotionSourceGroup).netSerializeLoad
      (badTagStream false false false false ⟨0, 0, 0⟩ {} 1 [] .foreign [])).2.2.2 = false :=
  ⟨by decide, (netSerializeLoad_bad_tag_aborts {} false false false false ⟨0, 0, 0⟩
      {} 1 [] .foreign [] (by decide) (Or.inr (Or.inl rfl))).1.2.2.2.1⟩
